import Mathlib

/-!
Verification development for the block raytracer (src/snell.rs, src/block.rs,
src/textures.rs, src/cube.rs and their data model).

Numeric model: the program computes with `f32`.  We embed the arithmetic with
exact rationals extended by the three special values the code's control flow
actually relies on: `+inf` (used as an explicit sentinel, `f32::INFINITY`, in
the slab intersection), `-inf`, and `nan` (which arises from `0.0 * inf`).
Finite arithmetic is exact (no rounding is modelled).  The two transcendental
primitives the code uses, `sqrt` and `powf`, are external library functions;
they are taken as opaque parameters of the embedding.
-/

/-- Extended rational: the value space of the embedded `f32` arithmetic.
`fin q` is an (exact) finite value, `pinf`/`ninf` the two infinities,
`nan` the not-a-number value produced e.g. by `0 * inf`. -/
inductive FQ : Type where
  | fin (q : ℚ)
  | pinf
  | ninf
  | nan
deriving DecidableEq, Repr

namespace FQ

/-- Strict `<` with IEEE semantics: any comparison with `nan` is false. -/
def blt : FQ → FQ → Bool
  | nan, _ => false
  | _, nan => false
  | ninf, ninf => false
  | ninf, _ => true
  | _, ninf => false
  | pinf, _ => false
  | fin _, pinf => true
  | fin a, fin b => decide (a < b)

/-- Non-strict `<=` with IEEE semantics: any comparison with `nan` is false. -/
def ble : FQ → FQ → Bool
  | nan, _ => false
  | _, nan => false
  | ninf, _ => true
  | _, ninf => false
  | _, pinf => true
  | pinf, fin _ => false
  | fin a, fin b => decide (a ≤ b)

def neg : FQ → FQ
  | fin q => fin (-q)
  | pinf => ninf
  | ninf => pinf
  | nan => nan

def add : FQ → FQ → FQ
  | nan, _ => nan
  | _, nan => nan
  | fin a, fin b => fin (a + b)
  | fin _, pinf => pinf
  | pinf, fin _ => pinf
  | fin _, ninf => ninf
  | ninf, fin _ => ninf
  | pinf, pinf => pinf
  | ninf, ninf => ninf
  | pinf, ninf => nan
  | ninf, pinf => nan

def sub (a b : FQ) : FQ := add a (neg b)

def mul : FQ → FQ → FQ
  | nan, _ => nan
  | _, nan => nan
  | fin a, fin b => fin (a * b)
  | fin a, pinf => if 0 < a then pinf else if a < 0 then ninf else nan
  | fin a, ninf => if 0 < a then ninf else if a < 0 then pinf else nan
  | pinf, fin b => if 0 < b then pinf else if b < 0 then ninf else nan
  | ninf, fin b => if 0 < b then ninf else if b < 0 then pinf else nan
  | pinf, pinf => pinf
  | pinf, ninf => ninf
  | ninf, pinf => ninf
  | ninf, ninf => pinf

/-- Division.  Rationals carry a single zero, which stands for IEEE `+0.0`
(the code never produces a negative zero on the paths modelled here). -/
def div : FQ → FQ → FQ
  | nan, _ => nan
  | _, nan => nan
  | fin a, fin b =>
      if b = 0 then (if a = 0 then nan else if 0 < a then pinf else ninf)
      else fin (a / b)
  | fin _, pinf => fin 0
  | fin _, ninf => fin 0
  | pinf, fin b => if 0 ≤ b then pinf else ninf
  | ninf, fin b => if 0 ≤ b then ninf else pinf
  | pinf, pinf => nan
  | pinf, ninf => nan
  | ninf, pinf => nan
  | ninf, ninf => nan

def abs : FQ → FQ
  | fin q => fin |q|
  | pinf => pinf
  | ninf => pinf
  | nan => nan

/-- Rust `f32::max`: ignores `nan` (returns the other operand). -/
def max : FQ → FQ → FQ
  | nan, b => b
  | a, nan => a
  | a, b => if blt a b then b else a

/-- Rust `f32::min`: ignores `nan` (returns the other operand). -/
def min : FQ → FQ → FQ
  | nan, b => b
  | a, nan => a
  | a, b => if blt b a then b else a

/-- Rust `f32::clamp(lo, hi)` (for `lo <= hi`): `nan` stays `nan`. -/
def clamp (x lo hi : FQ) : FQ :=
  if blt x lo then lo else if blt hi x then hi else x

/-- Rust `as i32` cast of a float after `floor()`: saturating, `nan` to 0. -/
def floorInt : FQ → ℤ
  | fin q => ⌊q⌋
  | pinf => 2147483647
  | ninf => -2147483648
  | nan => 0

instance : Add FQ := ⟨add⟩
instance : Sub FQ := ⟨sub⟩
instance : Neg FQ := ⟨neg⟩
instance : Mul FQ := ⟨mul⟩
instance : Div FQ := ⟨div⟩

/-- A finite, non-negative extended rational. -/
def NN (x : FQ) : Prop := ∃ q, x = fin q ∧ 0 ≤ q

end FQ

/-! ## Vectors

`QV3` is a vector of plain rationals (used for the literal-constructed data:
positions, colors, material fields).  `FV3` is a vector of `FQ` values (the
computed quantities: ray parameters, hit points, shading colors).  The vector
operations mirror raylib's `Vector3` operators: `+`, `-` componentwise, `*`
componentwise (Hadamard), scalar multiply / divide componentwise. -/

structure QV3 : Type where
  x : ℚ
  y : ℚ
  z : ℚ
deriving DecidableEq, Repr

structure FV3 : Type where
  x : FQ
  y : FQ
  z : FQ
deriving DecidableEq, Repr

namespace FV3

def zero : FV3 := ⟨FQ.fin 0, FQ.fin 0, FQ.fin 0⟩

def one : FV3 := ⟨FQ.fin 1, FQ.fin 1, FQ.fin 1⟩

def add (a b : FV3) : FV3 := ⟨a.x + b.x, a.y + b.y, a.z + b.z⟩

def sub (a b : FV3) : FV3 := ⟨a.x - b.x, a.y - b.y, a.z - b.z⟩

def neg (a : FV3) : FV3 := ⟨-a.x, -a.y, -a.z⟩

/-- Componentwise (Hadamard) product, raylib's `Vector3 * Vector3`. -/
def hmul (a b : FV3) : FV3 := ⟨a.x * b.x, a.y * b.y, a.z * b.z⟩

/-- Scalar multiply, raylib's `Vector3 * f32`. -/
def smul (a : FV3) (s : FQ) : FV3 := ⟨a.x * s, a.y * s, a.z * s⟩

/-- Scalar divide, raylib's `Vector3 / f32`. -/
def sdiv (a : FV3) (s : FQ) : FV3 := ⟨a.x / s, a.y / s, a.z / s⟩

def dot (a b : FV3) : FQ := a.x * b.x + a.y * b.y + a.z * b.z

instance : Add FV3 := ⟨add⟩
instance : Sub FV3 := ⟨sub⟩
instance : Neg FV3 := ⟨neg⟩
instance : Mul FV3 := ⟨hmul⟩

/-- Vector length, raylib: `sqrt(x*x + y*y + z*z)`.  `sq` is the external
square-root primitive. -/
def length (sq : FQ → FQ) (a : FV3) : FQ := sq (a.dot a)

/-- raylib's `Vector3::normalized`: divide by length, with raymath's guard
replacing a zero length by 1. -/
def normalized (sq : FQ → FQ) (a : FV3) : FV3 :=
  let len := length sq a
  let len := if len = FQ.fin 0 then FQ.fin 1 else len
  a.sdiv len

end FV3

/-- Interpret a literal-valued vector into the computation value space. -/
def QV3.toF (a : QV3) : FV3 := ⟨FQ.fin a.x, FQ.fin a.y, FQ.fin a.z⟩

/-! ## Data model (material.rs, light.rs, block.rs, ray_intersect.rs)

Material, light and block fields are built from program literals, so they are
plain rationals. -/

/-- material.rs `Material`. -/
structure Material : Type where
  diffuse : QV3
  albedo0 : ℚ
  albedo1 : ℚ
  specular : ℚ
  reflectivity : ℚ
  transparency : ℚ
  refractive_index : ℚ
  texture : Option String
  normal_map_id : Option String
deriving DecidableEq, Repr

/-- light.rs `Light`. -/
structure Light : Type where
  position : QV3
  color : QV3
  intensity : ℚ
deriving DecidableEq, Repr

/-- block.rs `Block`. -/
structure Block : Type where
  position : QV3
  size : ℚ
  material : Material
  emission : Option Light
deriving DecidableEq, Repr

/-- ray_intersect.rs `Intersect` in the form used by snell.rs / block.rs:
the material reference is optional (`None` means no hit). -/
structure Intersect : Type where
  material : Option Material
  distance : FQ
  is_intersecting : Bool
  normal : FV3
  point : FV3
  u : FQ
  v : FQ
deriving DecidableEq, Repr

namespace Intersect

/-- `Intersect::new`. -/
def new (material : Material) (distance : FQ) (normal point : FV3)
    (u v : FQ) : Intersect :=
  { material := some material, distance := distance, is_intersecting := true,
    normal := normal, point := point, u := u, v := v }

/-- `Intersect::empty`: distance is `f32::INFINITY`, no material. -/
def empty : Intersect :=
  { material := none, distance := FQ.pinf, is_intersecting := false,
    normal := FV3.zero, point := FV3.zero, u := FQ.fin 0, v := FQ.fin 0 }

end Intersect

/-! ## Texture store (textures.rs)

`CpuTexture` holds decoded pixels; the `HashMap<String, CpuTexture>` of
`TextureManager` is modelled extensionally as a lookup function.  The
GPU-texture side of the manager is display-only glue and is not modelled. -/

structure CpuTexture : Type where
  width : ℤ
  height : ℤ
  pixels : List QV3
deriving DecidableEq, Repr

structure TextureManager : Type where
  cpu_textures : String → Option CpuTexture

namespace CpuTexture

/-- textures.rs `get_pixel_clamped`: clamp the integer coordinates to the
texture bounds, then read the flat pixel array (white if out of range). -/
def get_pixel_clamped (t : CpuTexture) (x y : ℤ) : QV3 :=
  let x := if x < 0 then 0 else if t.width - 1 < x then t.width - 1 else x
  let y := if y < 0 then 0 else if t.height - 1 < y then t.height - 1 else y
  let idx := (y * t.width + x).toNat
  t.pixels.getD idx ⟨1, 1, 1⟩

/-- textures.rs `sample_bilinear`: clamp UV, scale by `(width-1, height-1)`,
and bilinearly interpolate the four surrounding texels. -/
def sample_bilinear (t : CpuTexture) (u v : FQ) : FV3 :=
  let u := FQ.clamp u (FQ.fin 0) (FQ.fin 1)
  let v := FQ.clamp v (FQ.fin 0) (FQ.fin 1)
  let x := u * FQ.fin ((t.width - 1 : ℤ) : ℚ)
  let y := v * FQ.fin ((t.height - 1 : ℤ) : ℚ)
  let x0 := FQ.floorInt x
  let y0 := FQ.floorInt y
  let x1 := Min.min (x0 + 1) (t.width - 1)
  let y1 := Min.min (y0 + 1) (t.height - 1)
  let fx := x - FQ.fin (x0 : ℚ)
  let fy := y - FQ.fin (y0 : ℚ)
  let c00 := (t.get_pixel_clamped x0 y0).toF
  let c10 := (t.get_pixel_clamped x1 y0).toF
  let c01 := (t.get_pixel_clamped x0 y1).toF
  let c11 := (t.get_pixel_clamped x1 y1).toF
  let c0 := c00 + (c10 - c00).smul fx
  let c1 := c01 + (c11 - c01).smul fx
  c0 + (c1 - c0).smul fy

/-- textures.rs `sample_normal`: remap the first two channels from [0,1] to
[-1,1], keep the third non-negative, and normalize. -/
def sample_normal (sq : FQ → FQ) (t : CpuTexture) (u v : FQ) : FV3 :=
  let color := t.sample_bilinear u v
  (FV3.mk (color.x * FQ.fin 2 - FQ.fin 1) (color.y * FQ.fin 2 - FQ.fin 1)
    (FQ.max color.z (FQ.fin 0))).normalized sq

end CpuTexture

namespace TextureManager

/-- textures.rs `sample_texture`: bilinear sample, or opaque white for an
unknown path. -/
def sample_texture (tm : TextureManager) (path : String) (u v : FQ) : FV3 :=
  match tm.cpu_textures path with
  | some tex => tex.sample_bilinear u v
  | none => FV3.one

/-- textures.rs `sample_normal_map`: normal-map sample, or the default
up-facing normal `(0,0,1)` for an unknown path. -/
def sample_normal_map (sq : FQ → FQ) (tm : TextureManager) (path : String)
    (u v : FQ) : FV3 :=
  match tm.cpu_textures path with
  | some tex => tex.sample_normal sq u v
  | none => ⟨FQ.fin 0, FQ.fin 0, FQ.fin 1⟩

end TextureManager

/-! ## Block geometry (block.rs) -/

/-- Rust `f32::clamp` on plain rationals (used where all operands are
literal-derived finite values, e.g. cube.rs). -/
def qclamp (a lo hi : ℚ) : ℚ := if a < lo then lo else if hi < a then hi else a

namespace Block

/-- block.rs `calc_uv`: face-dependent UV from the hit point and normal. -/
def calc_uv (b : Block) (point : FV3) (normal : FV3) : FQ × FQ :=
  let loc := point - b.position.toF
  let half := b.size * (1/2)
  let lx := (loc.x + FQ.fin half) / FQ.fin b.size
  let ly := (loc.y + FQ.fin half) / FQ.fin b.size
  let lz := (loc.z + FQ.fin half) / FQ.fin b.size
  if FQ.blt (FQ.fin (9/10)) (FQ.abs normal.x) then
    -- +/- X faces: horizontal = z, vertical = y (flipped)
    (FQ.clamp lz (FQ.fin 0) (FQ.fin 1),
     FQ.fin 1 - FQ.clamp ly (FQ.fin 0) (FQ.fin 1))
  else if FQ.blt (FQ.fin (9/10)) (FQ.abs normal.y) then
    -- +/- Y faces: horizontal = x, vertical = z (flipped only on -Y)
    (FQ.clamp lx (FQ.fin 0) (FQ.fin 1),
     FQ.clamp (if FQ.blt (FQ.fin 0) normal.y then lz else FQ.fin 1 - lz)
       (FQ.fin 0) (FQ.fin 1))
  else
    -- +/- Z faces: horizontal = x (mirrored on +Z), vertical = y (flipped)
    (FQ.clamp (if FQ.blt (FQ.fin 0) normal.z then FQ.fin 1 - lx else lx)
       (FQ.fin 0) (FQ.fin 1),
     FQ.fin 1 - FQ.clamp ly (FQ.fin 0) (FQ.fin 1))

/-- The slab-merge stage of block.rs `ray_intersect` (lines 62-89): per-axis
entry/exit parameters with `f32::INFINITY` inverse for near-zero direction
components, swapped into order per axis, intersected across the three axes.
`none` is the in-merge rejection (the code's two early `Intersect::empty()`
returns); `some (tmin, tmax)` is the state reaching line 91. -/
def slab_merge (b : Block) (origin dir : FV3) : Option (FQ × FQ) :=
  let half := b.size * (1/2)
  let minB : QV3 := ⟨b.position.x - half, b.position.y - half, b.position.z - half⟩
  let maxB : QV3 := ⟨b.position.x + half, b.position.y + half, b.position.z + half⟩
  let invx := if FQ.blt (FQ.fin (1/100000000)) (FQ.abs dir.x)
    then FQ.fin 1 / dir.x else FQ.pinf
  let invy := if FQ.blt (FQ.fin (1/100000000)) (FQ.abs dir.y)
    then FQ.fin 1 / dir.y else FQ.pinf
  let invz := if FQ.blt (FQ.fin (1/100000000)) (FQ.abs dir.z)
    then FQ.fin 1 / dir.z else FQ.pinf
  let tmin0 := (FQ.fin minB.x - origin.x) * invx
  let tmax0 := (FQ.fin maxB.x - origin.x) * invx
  let p := if FQ.blt tmax0 tmin0 then (tmax0, tmin0) else (tmin0, tmax0)
  let tmin := p.1
  let tmax := p.2
  let tymin0 := (FQ.fin minB.y - origin.y) * invy
  let tymax0 := (FQ.fin maxB.y - origin.y) * invy
  let py := if FQ.blt tymax0 tymin0 then (tymax0, tymin0) else (tymin0, tymax0)
  let tymin := py.1
  let tymax := py.2
  if FQ.blt tymax tmin || FQ.blt tmax tymin then none
  else
    let tmin := if FQ.blt tmin tymin then tymin else tmin
    let tmax := if FQ.blt tymax tmax then tymax else tmax
    let tzmin0 := (FQ.fin minB.z - origin.z) * invz
    let tzmax0 := (FQ.fin maxB.z - origin.z) * invz
    let pz := if FQ.blt tzmax0 tzmin0 then (tzmax0, tzmin0) else (tzmin0, tzmax0)
    let tzmin := pz.1
    let tzmax := pz.2
    if FQ.blt tzmax tmin || FQ.blt tmax tzmin then none
    else
      let tmin := if FQ.blt tmin tzmin then tzmin else tmin
      let tmax := if FQ.blt tzmax tmax then tzmax else tmax
      some (tmin, tmax)

/-- block.rs `ray_intersect` (lines 60-109): slab merge, rejection when the
box is entirely behind the origin, reported distance `tmin` if non-negative
else `tmax`, face normal by epsilon comparison against the six face planes in
a fixed order, and UV from `calc_uv`. -/
def ray_intersect (b : Block) (origin dir : FV3) : Intersect :=
  match b.slab_merge origin dir with
  | none => Intersect.empty
  | some (tmin, tmax) =>
    if FQ.blt tmin (FQ.fin 0) && FQ.blt tmax (FQ.fin 0) then Intersect.empty
    else
      let distance := if FQ.ble (FQ.fin 0) tmin then tmin else tmax
      let point := origin + dir.smul distance
      let half := b.size * (1/2)
      let minB : QV3 := ⟨b.position.x - half, b.position.y - half, b.position.z - half⟩
      let maxB : QV3 := ⟨b.position.x + half, b.position.y + half, b.position.z + half⟩
      let eps := FQ.fin (1/10000)
      let normal : FV3 :=
        if FQ.blt (FQ.abs (point.x - FQ.fin minB.x)) eps then
          ⟨FQ.fin (-1), FQ.fin 0, FQ.fin 0⟩
        else if FQ.blt (FQ.abs (point.x - FQ.fin maxB.x)) eps then
          ⟨FQ.fin 1, FQ.fin 0, FQ.fin 0⟩
        else if FQ.blt (FQ.abs (point.y - FQ.fin minB.y)) eps then
          ⟨FQ.fin 0, FQ.fin (-1), FQ.fin 0⟩
        else if FQ.blt (FQ.abs (point.y - FQ.fin maxB.y)) eps then
          ⟨FQ.fin 0, FQ.fin 1, FQ.fin 0⟩
        else if FQ.blt (FQ.abs (point.z - FQ.fin minB.z)) eps then
          ⟨FQ.fin 0, FQ.fin 0, FQ.fin (-1)⟩
        else if FQ.blt (FQ.abs (point.z - FQ.fin maxB.z)) eps then
          ⟨FQ.fin 0, FQ.fin 0, FQ.fin 1⟩
        else FV3.zero
      let uv := b.calc_uv point normal
      Intersect.new b.material distance normal point uv.1 uv.2

end Block

/-! ## Cube geometry (cube.rs): the standalone AABB cube's UV projection. -/

structure Cube : Type where
  center : QV3
  size : ℚ
  material : Material
deriving DecidableEq, Repr

/-- cube.rs `get_uv`: face-dependent UV projection, clamped at the end.
All inputs here are plain rationals (the function is arithmetic only). -/
def Cube.get_uv (c : Cube) (point : QV3) (normal : QV3) : ℚ × ℚ :=
  let lp : QV3 := ⟨point.x - c.center.x, point.y - c.center.y, point.z - c.center.z⟩
  let half := c.size * (1/2)
  let uv : ℚ × ℚ :=
    if 9/10 < |normal.x| then
      ((lp.z + half) / c.size, 1 - (lp.y + half) / c.size)
    else if 9/10 < |normal.y| then
      ((lp.x + half) / c.size,
       if 0 < normal.y then (lp.z + half) / c.size else 1 - (lp.z + half) / c.size)
    else
      (if 0 < normal.z then 1 - (lp.x + half) / c.size else (lp.x + half) / c.size,
       1 - (lp.y + half) / c.size)
  (qclamp uv.1 0 1, qclamp uv.2 0 1)

/-! ## Raytracer (snell.rs)

The embedding is parametrized by the two external float primitives:
`sq : FQ → FQ` for `f32::sqrt` and `pw : FQ → ℚ → FQ` for `f32::powf`
(the exponent is always a literal-derived material field). -/

def MAX_DISTANCE : ℚ := 50
def EPSILON : ℚ := 1/10000
def MIN_REFLECTION_THRESHOLD : ℚ := 1/20
def MIN_SPECULAR_THRESHOLD : ℚ := 5

/-- snell.rs `reflect`: `I - N * 2 * (I . N)`. -/
def reflect (incident normal : FV3) : FV3 :=
  incident - (normal.smul (FQ.fin 2)).smul (incident.dot normal)

/-- The discriminant `k = 1 - eta^2 * (1 - cos_i^2)` computed inside snell.rs
`refract` (lines 24-38), including the entering/exiting branch on the sign of
`incident . normal`.  Negative `k` is total internal reflection. -/
def snell_k (incident normal : FV3) (refractive_index : ℚ) : FQ :=
  let cosi0 := FQ.clamp (incident.dot normal) (FQ.fin (-1)) (FQ.fin 1)
  let etai := if FQ.blt (FQ.fin 0) cosi0 then FQ.fin refractive_index else FQ.fin 1
  let etat := if FQ.blt (FQ.fin 0) cosi0 then FQ.fin 1 else FQ.fin refractive_index
  let cosi := if FQ.blt (FQ.fin 0) cosi0 then cosi0 else -cosi0
  let eta := etai / etat
  FQ.fin 1 - eta * eta * (FQ.fin 1 - cosi * cosi)

/-- snell.rs `refract`: Snell refraction; returns the zero vector on total
internal reflection (`k < 0`). -/
def refract (sq : FQ → FQ) (incident normal : FV3)
    (refractive_index : ℚ) : FV3 :=
  let cosi0 := FQ.clamp (incident.dot normal) (FQ.fin (-1)) (FQ.fin 1)
  let etai := if FQ.blt (FQ.fin 0) cosi0 then FQ.fin refractive_index else FQ.fin 1
  let etat := if FQ.blt (FQ.fin 0) cosi0 then FQ.fin 1 else FQ.fin refractive_index
  let n := if FQ.blt (FQ.fin 0) cosi0 then -normal else normal
  let cosi := if FQ.blt (FQ.fin 0) cosi0 then cosi0 else -cosi0
  let eta := etai / etat
  let k := FQ.fin 1 - eta * eta * (FQ.fin 1 - cosi * cosi)
  if FQ.blt k (FQ.fin 0) then FV3.zero
  else incident.smul eta + n.smul (eta * cosi - sq k)

/-- snell.rs `calculate_fresnel`: Fresnel reflection coefficient, with the
near-normal-incidence early return 0.04, the total-internal-reflection return
1.0, exact Fresnel equations for `refractive_index > 1`, and the Schlick
approximation otherwise. -/
def calculate_fresnel (sq : FQ → FQ) (pw : FQ → ℚ → FQ) (cos_i0 : FQ)
    (refractive_index : ℚ) : FQ :=
  let cos_i := FQ.clamp cos_i0 (FQ.fin 0) (FQ.fin 1)
  if FQ.blt (FQ.fin (9999/10000)) cos_i then FQ.fin (1/25)
  else if (1 : ℚ) < refractive_index then
    let eta := (1 : ℚ) / refractive_index
    let sin_t_sq := FQ.fin (eta * eta) * (FQ.fin 1 - cos_i * cos_i)
    if FQ.ble (FQ.fin 1) sin_t_sq then FQ.fin 1
    else
      let cos_t := sq (FQ.fin 1 - sin_t_sq)
      let r_par := (FQ.fin refractive_index * cos_i - FQ.fin 1 * cos_t) /
        (FQ.fin refractive_index * cos_i + FQ.fin 1 * cos_t)
      let r_per := (FQ.fin 1 * cos_i - FQ.fin refractive_index * cos_t) /
        (FQ.fin 1 * cos_i + FQ.fin refractive_index * cos_t)
      (r_par * r_par + r_per * r_per) * FQ.fin (1/2)
  else
    FQ.fin (1/25) + FQ.fin (24/25) * pw (FQ.fin 1 - cos_i) 5

/-- The loop body state of snell.rs `find_closest_intersection` (lines 53-68):
`closest` and `min_distance`, walked down the scene list, with the
early-termination return for hits closer than 0.1. -/
def fci_loop (origin dir : FV3) : List Block → Option Intersect → FQ → Option Intersect
  | [], closest, _ => closest
  | block :: rest, closest, minD =>
    let hit := block.ray_intersect origin dir
    if hit.is_intersecting && FQ.blt hit.distance minD then
      if FQ.blt hit.distance (FQ.fin (1/10)) then some hit
      else fci_loop origin dir rest (some hit) hit.distance
    else fci_loop origin dir rest closest minD

/-- snell.rs `find_closest_intersection`. -/
def find_closest_intersection (origin dir : FV3) (scene : List Block) :
    Option Intersect :=
  fci_loop origin dir scene none (FQ.fin MAX_DISTANCE)

/-- Modelled from the spec (§4.4 step 2): the same linear scan keeping the
minimum distance, WITHOUT the early-termination short-circuit.  This is the
comparison object of the refinement claim about the short-circuit; it is not
a function of the source. -/
def fci_loop_no_early (origin dir : FV3) :
    List Block → Option Intersect → FQ → Option Intersect
  | [], closest, _ => closest
  | block :: rest, closest, minD =>
    let hit := block.ray_intersect origin dir
    if hit.is_intersecting && FQ.blt hit.distance minD then
      fci_loop_no_early origin dir rest (some hit) hit.distance
    else fci_loop_no_early origin dir rest closest minD

/-- Modelled from the spec: `find_closest_intersection` without the
short-circuit. -/
def find_closest_no_early (origin dir : FV3) (scene : List Block) :
    Option Intersect :=
  fci_loop_no_early origin dir scene none (FQ.fin MAX_DISTANCE)

/-- snell.rs `calculate_light_contribution`: diffuse (Lambert) plus
Blinn-Phong specular contribution of one light, with inverse-quadratic
attenuation. -/
def calculate_light_contribution (sq : FQ → FQ) (pw : FQ → ℚ → FQ)
    (intersect : Intersect) (light : Light) (base_color view_dir : FV3) : FV3 :=
  match intersect.material with
  | none => FV3.zero
  | some material =>
    let light_dir := (light.position.toF - intersect.point).normalized sq
    let light_distance := (light.position.toF - intersect.point).length sq
    let attenuation := FQ.fin 1 /
      (FQ.fin 1 + FQ.fin (1/100) * light_distance * light_distance)
    let n_dot_l := FQ.max (intersect.normal.dot light_dir) (FQ.fin 0)
    let diffuse_intensity := n_dot_l * FQ.fin light.intensity * attenuation
    let color := (((base_color * light.color.toF).smul diffuse_intensity).smul
      (FQ.fin material.albedo0))
    if MIN_SPECULAR_THRESHOLD < material.specular ∧
        FQ.blt (FQ.fin (1/10)) diffuse_intensity then
      let view_direction := (-view_dir).normalized sq
      let half_vector := (light_dir + view_direction).normalized sq
      let n_dot_h := FQ.max (intersect.normal.dot half_vector) (FQ.fin 0)
      let spec := pw n_dot_h material.specular
      color + ((light.color.toF.smul spec).smul (FQ.fin material.albedo1)).smul
        attenuation
    else color

/-- snell.rs `get_material_color`: material diffuse color, multiplied by the
texture sample when a texture is attached; white if there is no material. -/
def get_material_color (intersect : Intersect) (tm : TextureManager) : FV3 :=
  match intersect.material with
  | none => FV3.one
  | some material =>
    match material.texture with
    | none => material.diffuse.toF
    | some texture_path =>
      material.diffuse.toF *
        tm.sample_texture texture_path intersect.u intersect.v

/-- snell.rs `sky_color`: vertical gradient between a horizon color and a
zenith color. -/
def sky_color (dir : FV3) : FV3 :=
  let t := FQ.clamp (dir.y * FQ.fin (1/2) + FQ.fin (1/2)) (FQ.fin 0) (FQ.fin 1)
  let horizon_color : QV3 := ⟨4/5, 3/5, 2/5⟩
  let zenith_color : QV3 := ⟨1/5, 2/5, 4/5⟩
  horizon_color.toF.smul (FQ.fin 1 - t) + zenith_color.toF.smul t

/-- Lines 178-197 of snell.rs `trace_ray_multi_light`, factored out: sum the
per-light contributions, divide by the light count when the list is
non-empty, then add the ambient term `base_color * 0.1`. -/
def direct_lighting (sq : FQ → FQ) (pw : FQ → ℚ → FQ) (intersect : Intersect)
    (lights : List Light) (base_color dir : FV3) : FV3 :=
  let final_color := lights.foldl
    (fun acc light =>
      acc + calculate_light_contribution sq pw intersect light base_color dir)
    FV3.zero
  let final_color :=
    if lights.isEmpty then final_color
    else final_color.sdiv (FQ.fin (lights.length : ℚ))
  final_color + base_color.smul (FQ.fin (1/10))

/-- Lines 206-219 of snell.rs `trace_ray_multi_light`, factored out with the
recursive call abstracted as `recur`: the reflected continuation ray. -/
def reflection_step (recur : FV3 → FV3 → FV3) (sq : FQ → FQ)
    (material : Material) (intersect : Intersect) (dir : FV3)
    (depth max_depth : ℕ) : FV3 :=
  if MIN_REFLECTION_THRESHOLD < material.reflectivity ∧ depth < max_depth then
    let reflected_dir := (reflect dir intersect.normal).normalized sq
    let reflection_origin := intersect.point + intersect.normal.smul (FQ.fin EPSILON)
    recur reflection_origin reflected_dir
  else FV3.zero

/-- Lines 221-244 of snell.rs `trace_ray_multi_light`, factored out with the
recursive call abstracted as `recur`: the refracted continuation ray and the
Fresnel factor.  Both stay at their initial values (zero color, 0.0) unless a
valid (non total-internal-reflection) refraction direction is produced. -/
def refraction_step (recur : FV3 → FV3 → FV3) (sq : FQ → FQ)
    (pw : FQ → ℚ → FQ) (material : Material) (intersect : Intersect)
    (dir : FV3) (depth max_depth : ℕ) : FV3 × FQ :=
  if (1/20 : ℚ) < material.transparency ∧ depth < max_depth then
    let refracted_dir := refract sq dir intersect.normal material.refractive_index
    if FQ.blt (FQ.fin (1/100)) (refracted_dir.dot refracted_dir) then
      let refraction_origin := intersect.point - intersect.normal.smul (FQ.fin EPSILON)
      let refraction_color := recur refraction_origin refracted_dir
      let cos_i := FQ.abs (-(dir.dot intersect.normal))
      (refraction_color, calculate_fresnel sq pw cos_i material.refractive_index)
    else (FV3.zero, FQ.fin 0)
  else (FV3.zero, FQ.fin 0)

/-- Lines 246-267 of snell.rs `trace_ray_multi_light`, factored out: the
final combination of direct, reflected and refracted colors according to the
material's transparency and reflectivity. -/
def combine_colors (material : Material) (final_color reflection_color
    refraction_color : FV3) (fresnel_factor : FQ) : FV3 :=
  if (1/20 : ℚ) < material.transparency then
    let transparency := material.transparency
    let reflectivity := FQ.max (FQ.fin material.reflectivity) fresnel_factor
    let direct_contribution := final_color.smul (FQ.fin (1 - transparency))
    let refraction_contribution :=
      (refraction_color.smul (FQ.fin transparency)).smul (FQ.fin 1 - reflectivity)
    let reflection_contribution := reflection_color.smul reflectivity
    direct_contribution + refraction_contribution + reflection_contribution
  else if MIN_REFLECTION_THRESHOLD < material.reflectivity then
    final_color.smul (FQ.fin (1 - material.reflectivity)) +
      reflection_color.smul (FQ.fin material.reflectivity)
  else final_color

/-- The scalar weights `combine_colors` applies to the direct, reflected and
refracted colors, as a triple `(direct, reflected, refracted)`; the middle
expression of the transparent branch keeps the code's own multiplication
shape `transparency * (1 - max(reflectivity, fresnel))`. -/
def combine_coeffs (material : Material) (fresnel_factor : FQ) : FQ × FQ × FQ :=
  if (1/20 : ℚ) < material.transparency then
    let reflectivity := FQ.max (FQ.fin material.reflectivity) fresnel_factor
    (FQ.fin (1 - material.transparency),
     reflectivity,
     FQ.fin material.transparency * (FQ.fin 1 - reflectivity))
  else if MIN_REFLECTION_THRESHOLD < material.reflectivity then
    (FQ.fin (1 - material.reflectivity), FQ.fin material.reflectivity, FQ.fin 0)
  else (FQ.fin 1, FQ.fin 0, FQ.fin 0)

/-- Lines 269-274 of snell.rs `trace_ray_multi_light`: clamp each channel to
[0,1]. -/
def clamp_color (c : FV3) : FV3 :=
  ⟨FQ.clamp c.x (FQ.fin 0) (FQ.fin 1),
   FQ.clamp c.y (FQ.fin 0) (FQ.fin 1),
   FQ.clamp c.z (FQ.fin 0) (FQ.fin 1)⟩

/-- snell.rs `trace_ray_multi_light`, in fuel-indexed form.  The fuel is
`max_depth + 1 - depth`: zero fuel is exactly the `depth > max_depth` early
return, and each recursive call increases `depth` by one (only under the
`depth < max_depth` guards), decreasing the fuel by one. -/
def traceFuel (sq : FQ → FQ) (pw : FQ → ℚ → FQ) :
    ℕ → FV3 → FV3 → ℕ → ℕ → List Block → List Light → TextureManager → FV3
  | 0, _, dir, _, _, _, _, _ => sky_color dir
  | fuel + 1, origin, dir, depth, max_depth, scene, lights, tm =>
    match find_closest_intersection origin dir scene with
    | none => sky_color dir
    | some intersect =>
      match intersect.material with
      | none => sky_color dir
      | some material =>
        let base_color := get_material_color intersect tm
        let final_color := direct_lighting sq pw intersect lights base_color dir
        let recur := fun o d =>
          traceFuel sq pw fuel o d (depth + 1) max_depth scene lights tm
        let reflection_color :=
          reflection_step recur sq material intersect dir depth max_depth
        let refr := refraction_step recur sq pw material intersect dir depth max_depth
        clamp_color
          (combine_colors material final_color reflection_color refr.1 refr.2)

/-- snell.rs `trace_ray_multi_light`.  Total by construction: every recursive
call strictly increases `depth`, so `max_depth + 1 - depth` is a valid fuel. -/
def trace_ray_multi_light (sq : FQ → FQ) (pw : FQ → ℚ → FQ)
    (origin dir : FV3) (depth max_depth : ℕ) (scene : List Block)
    (lights : List Light) (tm : TextureManager) : FV3 :=
  traceFuel sq pw (max_depth + 1 - depth) origin dir depth max_depth scene lights tm

/-! ## Predicates and spec-side comparison definitions -/

/-- A finite, non-negative vector. -/
def FV3.NN (v : FV3) : Prop := v.x.NN ∧ v.y.NN ∧ v.z.NN

/-- A vector with three finite components. -/
def FV3.IsFin (v : FV3) : Prop :=
  ∃ a b c : ℚ, v = ⟨FQ.fin a, FQ.fin b, FQ.fin c⟩

/-- Well-behavedness assumption on the external square-root primitive: it
returns a finite non-negative value. -/
def sqrt_nonneg_total (sq : FQ → FQ) : Prop := ∀ x, ∃ s, sq x = FQ.fin s ∧ 0 ≤ s

/-- Well-behavedness assumption on the external power primitive. -/
def pow_nonneg_total (pw : FQ → ℚ → FQ) : Prop :=
  ∀ x n, ∃ s, pw x n = FQ.fin s ∧ 0 ≤ s

/-- Physically meaningful light data: non-negative intensity and color. -/
def Light.wf (l : Light) : Prop :=
  0 ≤ l.intensity ∧ 0 ≤ l.color.x ∧ 0 ≤ l.color.y ∧ 0 ≤ l.color.z

/-- The origin lies strictly inside the block's cube. -/
def strictly_inside (b : Block) (o : QV3) : Prop :=
  b.position.x - b.size * (1/2) < o.x ∧ o.x < b.position.x + b.size * (1/2) ∧
  b.position.y - b.size * (1/2) < o.y ∧ o.y < b.position.y + b.size * (1/2) ∧
  b.position.z - b.size * (1/2) < o.z ∧ o.z < b.position.z + b.size * (1/2)

instance (b : Block) (o : QV3) : Decidable (strictly_inside b o) := by
  unfold strictly_inside; infer_instance

/-- Every component of the direction clears the slab method's degeneracy
threshold `1e-8`. -/
def nondegenerate (d : QV3) : Prop :=
  1/100000000 < |d.x| ∧ 1/100000000 < |d.y| ∧ 1/100000000 < |d.z|

instance (d : QV3) : Decidable (nondegenerate d) := by
  unfold nondegenerate; infer_instance

/-- The point lies on the block's boundary, up to `eps`: inside the cube
expanded by `eps` and within `eps` of at least one of the six face planes.
Stated on `FQ` components so that it is decidable on computed hit points
(`nan`/infinite components never satisfy it). -/
def on_boundary (b : Block) (p : FV3) (eps : ℚ) : Bool :=
  let half := b.size * (1/2)
  let minB : QV3 := ⟨b.position.x - half, b.position.y - half, b.position.z - half⟩
  let maxB : QV3 := ⟨b.position.x + half, b.position.y + half, b.position.z + half⟩
  (FQ.ble (FQ.fin (minB.x - eps)) p.x && FQ.ble p.x (FQ.fin (maxB.x + eps)) &&
   FQ.ble (FQ.fin (minB.y - eps)) p.y && FQ.ble p.y (FQ.fin (maxB.y + eps)) &&
   FQ.ble (FQ.fin (minB.z - eps)) p.z && FQ.ble p.z (FQ.fin (maxB.z + eps))) &&
  (FQ.ble (FQ.abs (p.x - FQ.fin minB.x)) (FQ.fin eps) ||
   FQ.ble (FQ.abs (p.x - FQ.fin maxB.x)) (FQ.fin eps) ||
   FQ.ble (FQ.abs (p.y - FQ.fin minB.y)) (FQ.fin eps) ||
   FQ.ble (FQ.abs (p.y - FQ.fin maxB.y)) (FQ.fin eps) ||
   FQ.ble (FQ.abs (p.z - FQ.fin minB.z)) (FQ.fin eps) ||
   FQ.ble (FQ.abs (p.z - FQ.fin maxB.z)) (FQ.fin eps))

/-- Modelled from the claim for C6 (spec §4.1): UV from the face-specific
axis pairing "±X uses (z,y), ±Y uses (x,z), ±Z uses (x,y)", with the vertical
axis always flipped so image row 0 is up, and the horizontal axis mirrored on
faces whose normal points in the negative direction of its paired horizontal
axis.  No face's normal points along its own paired horizontal axis, so under
this reading no face is horizontally mirrored. -/
def calc_uv_claimed (b : Block) (point : QV3) (normal : QV3) : ℚ × ℚ :=
  let lx := (point.x - b.position.x + b.size * (1/2)) / b.size
  let ly := (point.y - b.position.y + b.size * (1/2)) / b.size
  let lz := (point.z - b.position.z + b.size * (1/2)) / b.size
  if 9/10 < |normal.x| then (qclamp lz 0 1, qclamp (1 - ly) 0 1)
  else if 9/10 < |normal.y| then (qclamp lx 0 1, qclamp (1 - lz) 0 1)
  else (qclamp lx 0 1, qclamp (1 - ly) 0 1)

/-- The six faces of a block. -/
inductive Face : Type where
  | px | nx | py | ny | pz | nz
deriving DecidableEq, Repr

/-- Outward unit normal of each face. -/
def faceNormal : Face → QV3
  | Face.px => ⟨1, 0, 0⟩
  | Face.nx => ⟨-1, 0, 0⟩
  | Face.py => ⟨0, 1, 0⟩
  | Face.ny => ⟨0, -1, 0⟩
  | Face.pz => ⟨0, 0, 1⟩
  | Face.nz => ⟨0, 0, -1⟩

/-- The per-face UV rule the code actually implements (the amended form of
claim C6): ±X pairs (z,y) with v flipped and u unmirrored; ±Y pairs (x,z)
with v flipped only on -Y; ±Z pairs (x,y) with v flipped and u mirrored only
on +Z.  All coordinates are clamped into [0,1]. -/
def calc_uv_face_rule (b : Block) (point : QV3) : Face → ℚ × ℚ
  | Face.px => ⟨qclamp ((point.z - b.position.z + b.size * (1/2)) / b.size) 0 1,
      1 - qclamp ((point.y - b.position.y + b.size * (1/2)) / b.size) 0 1⟩
  | Face.nx => ⟨qclamp ((point.z - b.position.z + b.size * (1/2)) / b.size) 0 1,
      1 - qclamp ((point.y - b.position.y + b.size * (1/2)) / b.size) 0 1⟩
  | Face.py => ⟨qclamp ((point.x - b.position.x + b.size * (1/2)) / b.size) 0 1,
      qclamp ((point.z - b.position.z + b.size * (1/2)) / b.size) 0 1⟩
  | Face.ny => ⟨qclamp ((point.x - b.position.x + b.size * (1/2)) / b.size) 0 1,
      qclamp (1 - (point.z - b.position.z + b.size * (1/2)) / b.size) 0 1⟩
  | Face.pz => ⟨qclamp (1 - (point.x - b.position.x + b.size * (1/2)) / b.size) 0 1,
      1 - qclamp ((point.y - b.position.y + b.size * (1/2)) / b.size) 0 1⟩
  | Face.nz => ⟨qclamp ((point.x - b.position.x + b.size * (1/2)) / b.size) 0 1,
      1 - qclamp ((point.y - b.position.y + b.size * (1/2)) / b.size) 0 1⟩

/-! ## Concrete example data (used by witnesses and counterexamples) -/

/-- Degenerate instantiation of the square-root primitive. -/
def sq0 : FQ → FQ := fun _ => FQ.fin 0

/-- Instantiation of the square root returning 1 everywhere (satisfies
`sqrt_nonneg_total`). -/
def sqOne : FQ → FQ := fun _ => FQ.fin 1

/-- Degenerate instantiation of the power primitive. -/
def pw0 : FQ → ℚ → FQ := fun _ _ => FQ.fin 0

/-- An opaque, non-reflective gray material. -/
def matOpaque : Material :=
  { diffuse := ⟨1/2, 1/2, 1/2⟩, albedo0 := 9/10, albedo1 := 1/10,
    specular := 10, reflectivity := 0, transparency := 0,
    refractive_index := 1, texture := none, normal_map_id := none }

/-- A transparent glass-like material (used in the total-internal-reflection
scenarios). -/
def matTIR : Material :=
  { matOpaque with transparency := 9/10, refractive_index := 3/2 }

/-- A transparent material with sub-threshold reflectivity 0.04: the
"purely transparent" regime of the combination step. -/
def matC1 : Material :=
  { matOpaque with
    transparency := 1/2
    reflectivity := 1/25
    refractive_index := 3/2 }

/-- Block builder for the examples. -/
def mkBlock (px py pz s : ℚ) (m : Material) : Block :=
  { position := ⟨px, py, pz⟩, size := s, material := m, emission := none }

def oEx : FV3 := ⟨FQ.fin 0, FQ.fin 0, FQ.fin 0⟩
def dEx : FV3 := ⟨FQ.fin 1, FQ.fin 0, FQ.fin 0⟩

/-- A unit block straight ahead of `oEx` along `dEx`, hit at distance 3/2. -/
def blockAhead : Block := mkBlock 2 0 0 1 matOpaque

/-- A unit block whose near face is at distance 59.5 ≥ MAX_DISTANCE. -/
def blockFar : Block := mkBlock 60 0 0 1 matOpaque

/-- Near face at distance 0.05 < 0.1 (scanned first). -/
def blockNear1 : Block := mkBlock (11/20) 0 0 1 matOpaque

/-- Near face at distance 0.02 < 0.1 (scanned second, strictly closer). -/
def blockNear2 : Block := mkBlock (13/25) 0 0 1 matOpaque

/-- The unit block centered at the origin. -/
def blockUnit : Block := mkBlock 0 0 0 1 matOpaque

/-- An origin strictly inside `blockUnit`. -/
def oInside : FV3 := ⟨FQ.fin 0, FQ.fin (2/5), FQ.fin 0⟩

/-- A shear direction: x component above the degeneracy threshold, y and z
components at or below it. -/
def dShear : FV3 := ⟨FQ.fin (1/50000000), FQ.fin (1/100000000), FQ.fin 0⟩

/-- The same inside origin as a rational vector. -/
def oInsideQ : QV3 := ⟨0, 2/5, 0⟩

/-- A direction with all three components above the degeneracy threshold. -/
def dNice : QV3 := ⟨1, 1/2, 1/3⟩

/-- The hit `find_closest_intersection oEx dEx [blockAhead]` produces. -/
def interAhead : Intersect :=
  Intersect.new matOpaque (FQ.fin (3/2))
    ⟨FQ.fin (-1), FQ.fin 0, FQ.fin 0⟩ ⟨FQ.fin (3/2), FQ.fin 0, FQ.fin 0⟩
    (FQ.fin (1/2)) (FQ.fin (1/2))

/-- An exit-side hit record carrying the `(0,1,0)` normal (for the
total-internal-reflection scenario). -/
def interTIR : Intersect :=
  Intersect.new matTIR (FQ.fin 1)
    ⟨FQ.fin 0, FQ.fin 1, FQ.fin 0⟩ ⟨FQ.fin 0, FQ.fin 0, FQ.fin 0⟩
    (FQ.fin 0) (FQ.fin 0)

/-- A ray direction exiting a dense medium steeply enough for total internal
reflection at `refractive_index = 3/2`. -/
def dTIR : FV3 := ⟨FQ.fin (4/5), FQ.fin (3/5), FQ.fin 0⟩

/-- The empty texture store. -/
def tm0 : TextureManager := ⟨fun _ => none⟩

/-- A 2x2 texture with four distinct texel colors. -/
def tex0 : CpuTexture :=
  { width := 2, height := 2,
    pixels := [⟨0, 0, 0⟩, ⟨1, 0, 0⟩, ⟨0, 1, 0⟩, ⟨1, 1, 1⟩] }

/-- A texture store holding `tex0` under the path "a". -/
def tmEx : TextureManager := ⟨fun p => if p = "a" then some tex0 else none⟩

/-- A light above the origin. -/
def lightEx : Light := { position := ⟨0, 5, 0⟩, color := ⟨1, 1, 1⟩, intensity := 2 }

/-- A finite hit record for the shading examples. -/
def interC7 : Intersect :=
  Intersect.new matOpaque (FQ.fin 1)
    ⟨FQ.fin 0, FQ.fin 1, FQ.fin 0⟩ ⟨FQ.fin 0, FQ.fin (1/2), FQ.fin 0⟩
    (FQ.fin 0) (FQ.fin 0)

def baseC7 : QV3 := ⟨1/2, 3/5, 7/10⟩

def dC7 : QV3 := ⟨0, -1, 0⟩

/-- Points and normals for the UV examples: a point on the +Z face and a
point on the +Y face of `blockUnit`. -/
def pZ : QV3 := ⟨1/4, 0, 1/2⟩
def nZ : QV3 := ⟨0, 0, 1⟩
def pY : QV3 := ⟨0, 1/2, 1/4⟩
def nY : QV3 := ⟨0, 1, 0⟩

/-- The textbook form of the bilinear interpolation of spec §4.2 (clamp UV,
scale by `(width-1, height-1)`, weight the four surrounding texels by the
fractional parts), written over plain rationals.  Comparison object for the
known-path half of claim C8. -/
def bilinear_weights_spec (t : CpuTexture) (uq vq : ℚ) : FV3 :=
  let x := qclamp uq 0 1 * ((t.width - 1 : ℤ) : ℚ)
  let y := qclamp vq 0 1 * ((t.height - 1 : ℤ) : ℚ)
  let x0 := ⌊x⌋
  let y0 := ⌊y⌋
  let x1 := Min.min (x0 + 1) (t.width - 1)
  let y1 := Min.min (y0 + 1) (t.height - 1)
  let fx := x - (x0 : ℚ)
  let fy := y - (y0 : ℚ)
  let c00 := t.get_pixel_clamped x0 y0
  let c10 := t.get_pixel_clamped x1 y0
  let c01 := t.get_pixel_clamped x0 y1
  let c11 := t.get_pixel_clamped x1 y1
  ⟨FQ.fin (c00.x * ((1 - fx) * (1 - fy)) + c10.x * (fx * (1 - fy)) +
     c01.x * ((1 - fx) * fy) + c11.x * (fx * fy)),
   FQ.fin (c00.y * ((1 - fx) * (1 - fy)) + c10.y * (fx * (1 - fy)) +
     c01.y * ((1 - fx) * fy) + c11.y * (fx * fy)),
   FQ.fin (c00.z * ((1 - fx) * (1 - fy)) + c10.z * (fx * (1 - fy)) +
     c01.z * ((1 - fx) * fy) + c11.z * (fx * fy))⟩

/-! ## Basic lemmas about the numeric model -/

namespace FQ

theorem add_def (x y : FQ) : x + y = FQ.add x y := rfl

theorem sub_def (x y : FQ) : x - y = FQ.sub x y := rfl

theorem mul_def (x y : FQ) : x * y = FQ.mul x y := rfl

theorem div_def (x y : FQ) : x / y = FQ.div x y := rfl

theorem neg_def (x : FQ) : -x = FQ.neg x := rfl

@[simp] theorem fin_add_fin (a b : ℚ) : (fin a + fin b : FQ) = fin (a + b) := rfl

@[simp] theorem fin_sub_fin (a b : ℚ) : (fin a - fin b : FQ) = fin (a - b) := by
  show sub _ _ = _
  simp [sub, add, neg, sub_eq_add_neg]

@[simp] theorem fin_mul_fin (a b : ℚ) : (fin a * fin b : FQ) = fin (a * b) := rfl

@[simp] theorem fin_neg (a : ℚ) : (-(fin a) : FQ) = fin (-a) := rfl

theorem fin_div_fin (a b : ℚ) (h : b ≠ 0) : (fin a / fin b : FQ) = fin (a / b) := by
  show div _ _ = _
  simp [div, h]

@[simp] theorem blt_fin_fin (a b : ℚ) : blt (fin a) (fin b) = decide (a < b) := rfl

@[simp] theorem ble_fin_fin (a b : ℚ) : ble (fin a) (fin b) = decide (a ≤ b) := rfl

@[simp] theorem abs_fin (a : ℚ) : abs (fin a) = fin |a| := rfl

@[simp] theorem max_fin_fin (a b : ℚ) : max (fin a) (fin b) = fin (Max.max a b) := by
  simp only [max, blt_fin_fin]
  rcases lt_or_le a b with h | h
  · simp [h, max_eq_right h.le]
  · simp [not_lt.mpr h, max_eq_left h]

@[simp] theorem zero_add_fq (x : FQ) : (fin 0 + x : FQ) = x := by
  cases x <;> show add _ _ = _ <;> simp [add]

@[simp] theorem clamp_fin (a lo hi : ℚ) :
    clamp (fin a) (fin lo) (fin hi) = fin (qclamp a lo hi) := by
  simp only [clamp, blt_fin_fin, qclamp]
  rcases lt_or_le a lo with h1 | h1
  · simp [h1]
  · rcases lt_or_le hi a with h2 | h2
    · simp [h2, not_lt.mpr h1]
    · simp [not_lt.mpr h1, not_lt.mpr h2]

theorem NN.add {x y : FQ} (hx : x.NN) (hy : y.NN) : (x + y).NN := by
  obtain ⟨a, rfl, ha⟩ := hx
  obtain ⟨b, rfl, hb⟩ := hy
  exact ⟨a + b, by simp, by linarith⟩

theorem NN.mul {x y : FQ} (hx : x.NN) (hy : y.NN) : (x * y).NN := by
  obtain ⟨a, rfl, ha⟩ := hx
  obtain ⟨b, rfl, hb⟩ := hy
  exact ⟨a * b, by simp, mul_nonneg ha hb⟩

/-- `f32::max(x, 0.0)` of a finite value is finite non-negative. -/
theorem NN.max_zero_of_fin (q : ℚ) : (FQ.max (fin q) (fin 0)).NN := by
  simp only [max_fin_fin]
  exact ⟨Max.max q 0, rfl, le_max_right _ _⟩

end FQ

namespace FV3

@[simp] theorem addv_def (a b : FV3) :
    a + b = ⟨a.x + b.x, a.y + b.y, a.z + b.z⟩ := rfl

@[simp] theorem subv_def (a b : FV3) :
    a - b = ⟨a.x - b.x, a.y - b.y, a.z - b.z⟩ := rfl

@[simp] theorem negv_def (a : FV3) : -a = ⟨-a.x, -a.y, -a.z⟩ := rfl

@[simp] theorem hmul_def (a b : FV3) :
    a * b = ⟨a.x * b.x, a.y * b.y, a.z * b.z⟩ := rfl

@[simp] theorem smul_def (a : FV3) (s : FQ) :
    a.smul s = ⟨a.x * s, a.y * s, a.z * s⟩ := rfl

@[simp] theorem sdiv_def (a : FV3) (s : FQ) :
    a.sdiv s = ⟨a.x / s, a.y / s, a.z / s⟩ := rfl

@[simp] theorem zero_add_v (v : FV3) : FV3.zero + v = v := by
  cases v
  simp [FV3.zero]

theorem NN.addv {a b : FV3} (ha : a.NN) (hb : b.NN) : (a + b).NN := by
  cases a; cases b
  exact ⟨FQ.NN.add ha.1 hb.1, FQ.NN.add ha.2.1 hb.2.1, FQ.NN.add ha.2.2 hb.2.2⟩

theorem NN.hmul {a b : FV3} (ha : a.NN) (hb : b.NN) : (a * b).NN := by
  cases a; cases b
  exact ⟨FQ.NN.mul ha.1 hb.1, FQ.NN.mul ha.2.1 hb.2.1, FQ.NN.mul ha.2.2 hb.2.2⟩

theorem NN.smul {a : FV3} {s : FQ} (ha : a.NN) (hs : s.NN) : (a.smul s).NN := by
  cases a
  exact ⟨FQ.NN.mul ha.1 hs, FQ.NN.mul ha.2.1 hs, FQ.NN.mul ha.2.2 hs⟩

theorem NN.zero : FV3.zero.NN :=
  ⟨⟨0, rfl, le_refl 0⟩, ⟨0, rfl, le_refl 0⟩, ⟨0, rfl, le_refl 0⟩⟩

end FV3

/-! ## C3: depth cutoff returns the sky gradient -/

/-- C3: for every origin, direction, scene, light list and texture store,
calling `trace_ray_multi_light` with `depth > max_depth` returns exactly the
sky gradient of the ray direction, independent of scene content.  The
embedding itself is total because every recursive call strictly increases
`depth` under a `depth < max_depth` guard, which is what justifies the fuel
`max_depth + 1 - depth`. -/
theorem trace_depth_exceeded_returns_sky (sq : FQ → FQ) (pw : FQ → ℚ → FQ)
    (origin dir : FV3) (depth max_depth : ℕ) (scene : List Block)
    (lights : List Light) (tm : TextureManager) (h : max_depth < depth) :
    trace_ray_multi_light sq pw origin dir depth max_depth scene lights tm =
      sky_color dir := by
  unfold trace_ray_multi_light
  have hf : max_depth + 1 - depth = 0 := by omega
  rw [hf]
  rfl

/-- Witness for C3 at `depth = max_depth + 1` on a non-trivial scene. -/
theorem trace_depth_exceeded_returns_sky_witness :
    trace_ray_multi_light sq0 pw0 oEx dEx 5 4 [blockAhead] [lightEx] tm0 =
      sky_color dEx :=
  trace_depth_exceeded_returns_sky sq0 pw0 oEx dEx 5 4 [blockAhead] [lightEx]
    tm0 (by omega)

/-! ## C9: hits at or beyond MAX_DISTANCE are ignored -/

/-- The intersection loop never records a hit when every block's hit distance
fails the `< 50.0` comparison (the accumulator distance only ever decreases
from its initial `MAX_DISTANCE`). -/
theorem fci_loop_none_of_far (origin dir : FV3) (scene : List Block)
    (h : ∀ b ∈ scene,
      FQ.blt (b.ray_intersect origin dir).distance (FQ.fin 50) = false) :
    fci_loop origin dir scene none (FQ.fin 50) = none := by
  induction scene with
  | nil => rfl
  | cons b rest ih =>
    have hb := h b (List.mem_cons_self b rest)
    simp only [fci_loop, hb, Bool.and_false, Bool.false_eq_true, if_false]
    exact ih fun b' hb' => h b' (List.mem_cons_of_mem _ hb')

/-- C9: if every block hit along a ray is at distance 50.0 (MAX_DISTANCE) or
beyond — i.e. the `< 50.0` test fails for every block — the scene scan finds
nothing and the tracer returns the sky gradient even though blocks intersect
the ray. -/
theorem max_distance_hits_ignored (sq : FQ → FQ) (pw : FQ → ℚ → FQ)
    (origin dir : FV3) (depth max_depth : ℕ) (scene : List Block)
    (lights : List Light) (tm : TextureManager)
    (h : ∀ b ∈ scene,
      FQ.blt (b.ray_intersect origin dir).distance (FQ.fin 50) = false) :
    find_closest_intersection origin dir scene = none ∧
    trace_ray_multi_light sq pw origin dir depth max_depth scene lights tm =
      sky_color dir := by
  have hn : find_closest_intersection origin dir scene = none :=
    fci_loop_none_of_far origin dir scene h
  refine ⟨hn, ?_⟩
  unfold trace_ray_multi_light
  cases max_depth + 1 - depth with
  | zero => rfl
  | succ n => simp only [traceFuel, hn]

/-- Witness for C9: `blockFar` intersects the ray (at distance 59.5) but is
treated as a miss. -/
theorem max_distance_hits_ignored_witness :
    (blockFar.ray_intersect oEx dEx).is_intersecting = true ∧
    find_closest_intersection oEx dEx [blockFar] = none ∧
    trace_ray_multi_light sq0 pw0 oEx dEx 0 3 [blockFar] [lightEx] tm0 =
      sky_color dEx := by
  have h := max_distance_hits_ignored sq0 pw0 oEx dEx 0 3 [blockFar] [lightEx]
    tm0 ?_
  · refine ⟨?_, h.1, h.2⟩
    norm_num [Block.ray_intersect, Block.slab_merge, Block.calc_uv,
      Intersect.new, Intersect.empty, blockFar, mkBlock, oEx, dEx, QV3.toF,
      FQ.div, FQ.mul, FQ.abs, FQ.blt, FQ.ble, FQ.sub, FQ.neg, FQ.add, FQ.clamp,
      FQ.add_def, FQ.sub_def, FQ.mul_def, FQ.div_def, FQ.neg_def, FV3.smul]
  · intro b hb
    rw [List.mem_singleton] at hb
    subst hb
    norm_num [Block.ray_intersect, Block.slab_merge, Block.calc_uv,
      Intersect.new, Intersect.empty, blockFar, mkBlock, oEx, dEx, QV3.toF,
      FQ.div, FQ.mul, FQ.abs, FQ.blt, FQ.ble, FQ.sub, FQ.neg, FQ.add, FQ.clamp,
      FQ.add_def, FQ.sub_def, FQ.mul_def, FQ.div_def, FQ.neg_def, FV3.smul]

/-! ## C2: the early-termination short-circuit vs the exhaustive minimum -/

/-- C2 counterexample: with two blocks both hit below the 0.1 threshold, the
short-circuiting scan returns the first sub-threshold hit (distance 0.05)
while the exhaustive scan finds the strictly closer one (distance 0.02), so
the short-circuit changes which distance is reported, not merely the
ordering of ties. -/
theorem find_closest_shortcircuit_differs :
    (find_closest_intersection oEx dEx [blockNear1, blockNear2]).map
        Intersect.distance = some (FQ.fin (1/20)) ∧
    (find_closest_no_early oEx dEx [blockNear1, blockNear2]).map
        Intersect.distance = some (FQ.fin (1/50)) ∧
    (FQ.fin (1/20) : FQ) ≠ FQ.fin (1/50) := by
  refine ⟨?_, ?_, by simp⟩ <;>
    norm_num [find_closest_intersection, find_closest_no_early, fci_loop,
      fci_loop_no_early, MAX_DISTANCE, Block.ray_intersect, Block.slab_merge,
      Block.calc_uv, Intersect.new, Intersect.empty, blockNear1, blockNear2,
      mkBlock, matOpaque, oEx, dEx, QV3.toF, FQ.div, FQ.mul, FQ.abs, FQ.blt,
      FQ.ble, FQ.sub, FQ.neg, FQ.add, FQ.clamp, FQ.add_def, FQ.sub_def,
      FQ.mul_def, FQ.div_def, FQ.neg_def, FV3.smul]

/-- The two loop bodies agree whenever no block hit is below the 0.1
short-circuit threshold. -/
theorem fci_loops_agree (origin dir : FV3) (scene : List Block)
    (closest : Option Intersect) (minD : FQ)
    (h : ∀ b ∈ scene,
      FQ.blt (b.ray_intersect origin dir).distance (FQ.fin (1/10)) = false) :
    fci_loop origin dir scene closest minD =
      fci_loop_no_early origin dir scene closest minD := by
  induction scene generalizing closest minD with
  | nil => rfl
  | cons b rest ih =>
    have hb := h b (List.mem_cons_self b rest)
    have htail : ∀ b' ∈ rest,
        FQ.blt (b'.ray_intersect origin dir).distance (FQ.fin (1/10)) = false :=
      fun b' hb' => h b' (List.mem_cons_of_mem _ hb')
    simp only [fci_loop, fci_loop_no_early, hb, Bool.false_eq_true, if_false]
    split
    · exact ih _ _ htail
    · exact ih _ _ htail

/-- C2 amended: the claim fails in general (see the counterexample), but the
equivalence does hold whenever no block hit lies below the 0.1 threshold:
then the short-circuit never fires and `find_closest_intersection` equals the
exhaustive minimum-distance scan. -/
theorem find_closest_equals_exhaustive_above_threshold (origin dir : FV3)
    (scene : List Block)
    (h : ∀ b ∈ scene,
      FQ.blt (b.ray_intersect origin dir).distance (FQ.fin (1/10)) = false) :
    find_closest_intersection origin dir scene =
      find_closest_no_early origin dir scene :=
  fci_loops_agree origin dir scene none (FQ.fin MAX_DISTANCE) h

/-- Witness for the amended C2 on a two-block scene with hits at distances
3/2 and 59.5. -/
theorem find_closest_equals_exhaustive_witness :
    find_closest_intersection oEx dEx [blockAhead, blockFar] =
      find_closest_no_early oEx dEx [blockAhead, blockFar] :=
  find_closest_equals_exhaustive_above_threshold oEx dEx [blockAhead, blockFar]
    (by
      intro b hb
      rw [List.mem_cons, List.mem_singleton] at hb
      rcases hb with hb | hb <;> subst hb <;>
        norm_num [Block.ray_intersect, Block.slab_merge, Block.calc_uv,
          Intersect.new, Intersect.empty, blockAhead, blockFar, mkBlock, oEx,
          dEx, QV3.toF, FQ.div, FQ.mul, FQ.abs, FQ.blt, FQ.ble, FQ.sub, FQ.neg,
          FQ.add, FQ.clamp, FQ.add_def, FQ.sub_def, FQ.mul_def, FQ.div_def,
          FQ.neg_def, FV3.smul])

/-! ## C4: total internal reflection in the refraction step -/

/-- C4 counterexample: on a hit of a transparent material where Snell's law
yields a negative discriminant (here k = -11/25 < 0), `refract` returns the
zero vector, so the refraction step keeps both of its initial values: the
refraction color stays zero AND the Fresnel factor stays 0.0 — it is not
forced to 1.0 as the claim states (`fresnel_factor` is only ever assigned
inside the valid-refraction branch, lines 226-243 of snell.rs). -/
theorem refraction_tir_fresnel_not_one :
    FQ.blt (snell_k dTIR interTIR.normal matTIR.refractive_index) (FQ.fin 0)
      = true ∧
    refract sq0 dTIR interTIR.normal matTIR.refractive_index = FV3.zero ∧
    ((1/20 : ℚ) < matTIR.transparency ∧ (0 : ℕ) < 3) ∧
    refraction_step (fun _ _ => FV3.one) sq0 pw0 matTIR interTIR dTIR 0 3 =
      (FV3.zero, FQ.fin 0) ∧
    (FQ.fin 0 : FQ) ≠ FQ.fin 1 := by
  refine ⟨?_, ?_, ⟨by norm_num [matTIR, matOpaque], by norm_num⟩, ?_, by simp⟩ <;>
    norm_num [snell_k, refract, refraction_step, calculate_fresnel, EPSILON,
      dTIR, interTIR, matTIR, matOpaque, Intersect.new, QV3.toF, FV3.dot,
      FV3.zero, FV3.one, FQ.div, FQ.mul, FQ.abs, FQ.blt, FQ.ble, FQ.sub,
      FQ.neg, FQ.add, FQ.clamp, FQ.add_def, FQ.sub_def, FQ.mul_def, FQ.div_def,
      FQ.neg_def, FV3.smul]

/-- Total internal reflection makes `refract` return the zero vector. -/
theorem refract_zero_of_tir (sq : FQ → FQ) (incident normal : FV3)
    (refractive_index : ℚ)
    (h : FQ.blt (snell_k incident normal refractive_index) (FQ.fin 0) = true) :
    refract sq incident normal refractive_index = FV3.zero := by
  unfold refract
  unfold snell_k at h
  simp only [h, if_true]

/-- C4 amended: on total internal reflection (negative discriminant in
Snell's law) the refraction step contributes nothing — the refraction color
is zero — and the Fresnel weight used in the blend stays at its
initialization value 0.0 (NOT 1.0), so the blend falls back to the
material's own reflectivity. -/
theorem refraction_step_tir (recur : FV3 → FV3 → FV3) (sq : FQ → FQ)
    (pw : FQ → ℚ → FQ) (material : Material) (intersect : Intersect)
    (dir : FV3) (depth max_depth : ℕ)
    (h : FQ.blt (snell_k dir intersect.normal material.refractive_index)
      (FQ.fin 0) = true) :
    refraction_step recur sq pw material intersect dir depth max_depth =
      (FV3.zero, FQ.fin 0) := by
  unfold refraction_step
  split
  · rw [refract_zero_of_tir sq dir intersect.normal material.refractive_index h]
    norm_num [FV3.dot, FV3.zero, FQ.blt, FQ.mul, FQ.add, FQ.mul_def, FQ.add_def]
  · rfl

/-- Witness for the amended C4. -/
theorem refraction_step_tir_witness :
    refraction_step (fun _ _ => FV3.one) sq0 pw0 matTIR interTIR dTIR 1 3 =
      (FV3.zero, FQ.fin 0) :=
  refraction_step_tir (fun _ _ => FV3.one) sq0 pw0 matTIR interTIR dTIR 1 3
    (by
      norm_num [snell_k, dTIR, interTIR, matTIR, matOpaque, Intersect.new,
        QV3.toF, FV3.dot, FQ.div, FQ.mul, FQ.abs, FQ.blt, FQ.ble, FQ.sub,
        FQ.neg, FQ.add, FQ.clamp, FQ.add_def, FQ.sub_def, FQ.mul_def,
        FQ.div_def, FQ.neg_def])

/-! ## C1: the combination step's energy accounting -/

/-- C1 counterexample: in the purely transparent regime (transparency 1/2
above the 0.05 threshold, reflectivity 0.04 below it) with Fresnel factor at
its initialization value 0.0 (as happens on total internal reflection or when
the depth budget is exhausted — no Fresnel split is involved at all), the
direct/reflected/refracted coefficients are (1/2, 1/25, 12/25): they sum to
51/50, not 1.  Feeding unit energy into all three colors accordingly yields
51/50 on every channel. -/
theorem combine_coeffs_sum_not_one :
    ((1/20 : ℚ) < matC1.transparency ∧
      ¬ (MIN_REFLECTION_THRESHOLD < matC1.reflectivity)) ∧
    (combine_coeffs matC1 (FQ.fin 0)).1 + (combine_coeffs matC1 (FQ.fin 0)).2.1 +
      (combine_coeffs matC1 (FQ.fin 0)).2.2 = FQ.fin (51/50) ∧
    combine_colors matC1 FV3.one FV3.one FV3.one (FQ.fin 0) =
      ⟨FQ.fin (51/50), FQ.fin (51/50), FQ.fin (51/50)⟩ ∧
    (FQ.fin (51/50) : FQ) ≠ FQ.fin 1 := by
  refine ⟨⟨by norm_num [matC1, matOpaque], by norm_num [matC1, matOpaque,
    MIN_REFLECTION_THRESHOLD]⟩, ?_, ?_, by simp; norm_num⟩ <;>
    norm_num [combine_coeffs, combine_colors, matC1, matOpaque,
      MIN_REFLECTION_THRESHOLD, FV3.one, FV3.smul, FQ.max, FQ.blt, FQ.mul,
      FQ.add, FQ.sub, FQ.neg, FQ.add_def, FQ.sub_def, FQ.mul_def, FQ.neg_def]

/-- C1 amended: `combine_colors` applies exactly the scalar weights of
`combine_coeffs` to the direct, refracted and reflected colors (first
conjunct, stated for finite colors and Fresnel factor).  The weights sum to
exactly 1 for opaque materials and for purely reflective materials; for any
transparent material (transparency > 0.05) they sum to
`1 + max(reflectivity, fresnel) * (1 - transparency)`, which exceeds 1
whenever the effective reflectivity is positive and transparency is below 1 —
the claimed energy-accounting invariant holds only in the first two regimes. -/
theorem combination_weights (material : Material) (f : ℚ)
    (direct refl refr : QV3) :
    (combine_colors material direct.toF refl.toF refr.toF (FQ.fin f) =
      direct.toF.smul (combine_coeffs material (FQ.fin f)).1 +
      refr.toF.smul (combine_coeffs material (FQ.fin f)).2.2 +
      refl.toF.smul (combine_coeffs material (FQ.fin f)).2.1) ∧
    (¬ ((1/20 : ℚ) < material.transparency) →
      ¬ (MIN_REFLECTION_THRESHOLD < material.reflectivity) →
      (combine_coeffs material (FQ.fin f)).1 +
        (combine_coeffs material (FQ.fin f)).2.1 +
        (combine_coeffs material (FQ.fin f)).2.2 = FQ.fin 1) ∧
    (¬ ((1/20 : ℚ) < material.transparency) →
      MIN_REFLECTION_THRESHOLD < material.reflectivity →
      (combine_coeffs material (FQ.fin f)).1 +
        (combine_coeffs material (FQ.fin f)).2.1 +
        (combine_coeffs material (FQ.fin f)).2.2 = FQ.fin 1) ∧
    ((1/20 : ℚ) < material.transparency →
      (combine_coeffs material (FQ.fin f)).1 +
        (combine_coeffs material (FQ.fin f)).2.1 +
        (combine_coeffs material (FQ.fin f)).2.2 =
        FQ.fin (1 + Max.max material.reflectivity f *
          (1 - material.transparency))) := by
  refine ⟨?_, ?_, ?_, ?_⟩
  · unfold combine_colors combine_coeffs
    split_ifs with hT hR
    · simp only [FQ.max_fin_fin, FQ.fin_sub_fin, FQ.fin_mul_fin,
        FQ.fin_add_fin, FV3.smul_def, FV3.addv_def, QV3.toF, FV3.mk.injEq]
      refine ⟨?_, ?_, ?_⟩ <;> ring
    · simp only [FQ.fin_sub_fin, FQ.fin_mul_fin, FQ.fin_add_fin, FV3.smul_def,
        FV3.addv_def, QV3.toF, FV3.mk.injEq]
      refine ⟨?_, ?_, ?_⟩ <;> ring
    · simp only [FQ.fin_mul_fin, FQ.fin_add_fin, FV3.smul_def, FV3.addv_def,
        QV3.toF, FV3.mk.injEq]
      refine ⟨?_, ?_, ?_⟩ <;> ring
  · intro hT hR
    unfold combine_coeffs
    rw [if_neg hT, if_neg hR]
    simp
  · intro hT hR
    unfold combine_coeffs
    rw [if_neg hT, if_pos hR]
    simp only [FQ.fin_add_fin]
    congr 1
    ring
  · intro hT
    unfold combine_coeffs
    rw [if_pos hT]
    simp only [FQ.max_fin_fin, FQ.fin_sub_fin, FQ.fin_mul_fin, FQ.fin_add_fin]
    congr 1
    ring

/-- Witness for the amended C1: the linkage at a concrete material and
colors, the exact sum 1 in the purely-reflective regime, and the transparent
regime sum at `matC1`. -/
theorem combination_weights_witness :
    (combine_colors matOpaque (⟨1, 0, 0⟩ : QV3).toF (⟨0, 1, 0⟩ : QV3).toF
      (⟨0, 0, 1⟩ : QV3).toF (FQ.fin 0) =
      (⟨1, 0, 0⟩ : QV3).toF.smul (combine_coeffs matOpaque (FQ.fin 0)).1 +
      (⟨0, 0, 1⟩ : QV3).toF.smul (combine_coeffs matOpaque (FQ.fin 0)).2.2 +
      (⟨0, 1, 0⟩ : QV3).toF.smul (combine_coeffs matOpaque (FQ.fin 0)).2.1) ∧
    (combine_coeffs matOpaque (FQ.fin 0)).1 +
      (combine_coeffs matOpaque (FQ.fin 0)).2.1 +
      (combine_coeffs matOpaque (FQ.fin 0)).2.2 = FQ.fin 1 ∧
    (combine_coeffs matC1 (FQ.fin (1/25))).1 +
      (combine_coeffs matC1 (FQ.fin (1/25))).2.1 +
      (combine_coeffs matC1 (FQ.fin (1/25))).2.2 =
      FQ.fin (1 + Max.max matC1.reflectivity (1/25) *
        (1 - matC1.transparency)) := by
  refine ⟨(combination_weights matOpaque 0 ⟨1, 0, 0⟩ ⟨0, 1, 0⟩ ⟨0, 0, 1⟩).1,
    (combination_weights matOpaque 0 ⟨1, 0, 0⟩ ⟨0, 1, 0⟩ ⟨0, 0, 1⟩).2.1
      (by norm_num [matOpaque]) (by norm_num [matOpaque, MIN_REFLECTION_THRESHOLD]),
    (combination_weights matC1 (1/25) ⟨1, 0, 0⟩ ⟨0, 1, 0⟩ ⟨0, 0, 1⟩).2.2.2
      (by norm_num [matC1, matOpaque])⟩

/-! ## C8: texture sampling never errors; unknown paths get defaults -/

set_option maxHeartbeats 1600000 in
/-- C8: for any u, v and any path absent from the store, `sample_texture`
returns opaque white and `sample_normal_map` returns the default up-facing
normal (0,0,1) — both are total functions, no error path exists.  For a known
path and finite u, v, `sample_texture` clamps u and v to [0,1], scales by
`(width-1, height-1)`, and returns exactly the bilinear combination of the
four surrounding texels. -/
theorem texture_sampling_total (sq : FQ → FQ) (tm : TextureManager)
    (path : String) (u v : FQ) :
    (tm.cpu_textures path = none →
      tm.sample_texture path u v = FV3.one ∧
      tm.sample_normal_map sq path u v = ⟨FQ.fin 0, FQ.fin 0, FQ.fin 1⟩) ∧
    (∀ tex : CpuTexture, ∀ uq vq : ℚ, tm.cpu_textures path = some tex →
      u = FQ.fin uq → v = FQ.fin vq →
      tm.sample_texture path u v = bilinear_weights_spec tex uq vq) := by
  constructor
  · intro h
    constructor
    · unfold TextureManager.sample_texture
      rw [h]
    · unfold TextureManager.sample_normal_map
      rw [h]
  · intro tex uq vq hsome hu hv
    subst hu
    subst hv
    unfold TextureManager.sample_texture
    rw [hsome]
    unfold CpuTexture.sample_bilinear bilinear_weights_spec
    simp only [FQ.clamp_fin, FQ.fin_mul_fin, FQ.floorInt, FQ.fin_sub_fin,
      FQ.fin_add_fin, QV3.toF, FV3.smul_def, FV3.subv_def, FV3.addv_def,
      FV3.mk.injEq]
    refine ⟨?_, ?_, ?_⟩ <;> ring

/-- Witness for C8: an unknown path yields the defaults; the known path "a"
on the 2x2 texture `tex0` at (u,v) = (1/4, 1/3) yields the bilinear value
(1/4, 1/3, 1/12). -/
theorem texture_sampling_total_witness :
    tmEx.sample_texture "b" (FQ.fin (1/4)) (FQ.fin (1/3)) = FV3.one ∧
    tmEx.sample_normal_map sq0 "b" (FQ.fin (1/4)) (FQ.fin (1/3)) =
      ⟨FQ.fin 0, FQ.fin 0, FQ.fin 1⟩ ∧
    tmEx.sample_texture "a" (FQ.fin (1/4)) (FQ.fin (1/3)) =
      ⟨FQ.fin (1/4), FQ.fin (1/3), FQ.fin (1/12)⟩ := by
  have hnone : tmEx.cpu_textures "b" = none := by
    simp [tmEx]
  have hsome : tmEx.cpu_textures "a" = some tex0 := by
    simp [tmEx]
  have h1 := (texture_sampling_total sq0 tmEx "b" (FQ.fin (1/4))
    (FQ.fin (1/3))).1 hnone
  have h2 := (texture_sampling_total sq0 tmEx "a" (FQ.fin (1/4))
    (FQ.fin (1/3))).2 tex0 (1/4) (1/3) hsome rfl rfl
  refine ⟨h1.1, h1.2, ?_⟩
  rw [h2]
  norm_num [bilinear_weights_spec, tex0, CpuTexture.get_pixel_clamped, qclamp]
  norm_num [show ((2 : ℤ).toNat = 2) from rfl, show ((3 : ℤ).toNat = 3) from rfl]

/-! ## C10: empty light list -/

/-- Over an empty light list the accumulated sum is zero, the division by the
light count is skipped by the emptiness guard, and the direct shading reduces
to exactly the ambient term `base * 0.1`. -/
theorem direct_lighting_nil (sq : FQ → FQ) (pw : FQ → ℚ → FQ)
    (intersect : Intersect) (base dir : FV3) :
    direct_lighting sq pw intersect [] base dir = base.smul (FQ.fin (1/10)) := by
  unfold direct_lighting
  simp only [List.foldl_nil, List.isEmpty_nil, if_true, FV3.zero_add_v]

/-- C10: with an empty light list the tracer never divides by zero — the
division by the light count is guarded by the emptiness check, the summed
light contribution is zero, and on a hit the returned color is the clamped
combination of the ambient term (10% of the base color) with the
reflection/refraction contributions. -/
theorem trace_empty_lights_no_div (sq : FQ → FQ) (pw : FQ → ℚ → FQ)
    (origin dir : FV3) (depth max_depth : ℕ) (scene : List Block)
    (tm : TextureManager) (intersect : Intersect) (material : Material)
    (hd : depth ≤ max_depth)
    (hf : find_closest_intersection origin dir scene = some intersect)
    (hm : intersect.material = some material) :
    trace_ray_multi_light sq pw origin dir depth max_depth scene [] tm =
      clamp_color (combine_colors material
        ((get_material_color intersect tm).smul (FQ.fin (1/10)))
        (reflection_step
          (fun o d => trace_ray_multi_light sq pw o d (depth + 1) max_depth
            scene [] tm) sq material intersect dir depth max_depth)
        (refraction_step
          (fun o d => trace_ray_multi_light sq pw o d (depth + 1) max_depth
            scene [] tm) sq pw material intersect dir depth max_depth).1
        (refraction_step
          (fun o d => trace_ray_multi_light sq pw o d (depth + 1) max_depth
            scene [] tm) sq pw material intersect dir depth max_depth).2) := by
  unfold trace_ray_multi_light
  have h1 : max_depth + 1 - depth = (max_depth - depth) + 1 := by omega
  have h2 : max_depth + 1 - (depth + 1) = max_depth - depth := by omega
  rw [h1]
  simp only [traceFuel, hf, hm, direct_lighting_nil, h2]

/-- Witness for C10 on a one-block scene. -/
theorem trace_empty_lights_no_div_witness :
    trace_ray_multi_light sq0 pw0 oEx dEx 0 1 [blockAhead] [] tm0 =
      clamp_color (combine_colors matOpaque
        ((get_material_color interAhead tm0).smul (FQ.fin (1/10)))
        (reflection_step
          (fun o d => trace_ray_multi_light sq0 pw0 o d 1 1 [blockAhead] [] tm0)
          sq0 matOpaque interAhead dEx 0 1)
        (refraction_step
          (fun o d => trace_ray_multi_light sq0 pw0 o d 1 1 [blockAhead] [] tm0)
          sq0 pw0 matOpaque interAhead dEx 0 1).1
        (refraction_step
          (fun o d => trace_ray_multi_light sq0 pw0 o d 1 1 [blockAhead] [] tm0)
          sq0 pw0 matOpaque interAhead dEx 0 1).2) :=
  trace_empty_lights_no_div sq0 pw0 oEx dEx 0 1 [blockAhead] tm0 interAhead
    matOpaque (by omega)
    (by
      norm_num [find_closest_intersection, fci_loop, MAX_DISTANCE,
        Block.ray_intersect, Block.slab_merge, Block.calc_uv, Intersect.new,
        Intersect.empty, interAhead, blockAhead, mkBlock, oEx, dEx, QV3.toF,
        FQ.div, FQ.mul, FQ.abs, FQ.blt, FQ.ble, FQ.sub, FQ.neg, FQ.add,
        FQ.clamp, FQ.add_def, FQ.sub_def, FQ.mul_def, FQ.div_def, FQ.neg_def,
        FV3.smul])
    rfl

/-! ## C7: light averaging, the ambient floor, and non-blackness -/

theorem FV3.IsFin.toF (p : QV3) : (p.toF).IsFin := ⟨p.x, p.y, p.z, rfl⟩

theorem FV3.IsFin.sub {a b : FV3} (ha : a.IsFin) (hb : b.IsFin) :
    (a - b).IsFin := by
  obtain ⟨a1, a2, a3, rfl⟩ := ha
  obtain ⟨b1, b2, b3, rfl⟩ := hb
  exact ⟨a1 - b1, a2 - b2, a3 - b3, by simp⟩

theorem FV3.IsFin.neg {a : FV3} (ha : a.IsFin) : (-a).IsFin := by
  obtain ⟨a1, a2, a3, rfl⟩ := ha
  exact ⟨-a1, -a2, -a3, by simp⟩

theorem FV3.IsFin.dot {a b : FV3} (ha : a.IsFin) (hb : b.IsFin) :
    ∃ q : ℚ, a.dot b = FQ.fin q := by
  obtain ⟨a1, a2, a3, rfl⟩ := ha
  obtain ⟨b1, b2, b3, rfl⟩ := hb
  exact ⟨a1 * b1 + a2 * b2 + a3 * b3, by simp [FV3.dot]⟩

theorem FV3.IsFin.sdiv_ne {a : FV3} {s : ℚ} (ha : a.IsFin) (hs : s ≠ 0) :
    (a.sdiv (FQ.fin s)).IsFin := by
  obtain ⟨a1, a2, a3, rfl⟩ := ha
  exact ⟨a1 / s, a2 / s, a3 / s, by simp [FQ.fin_div_fin _ _ hs]⟩

/-- Normalizing a finite vector stays finite when the square-root primitive
is well-behaved (the raymath zero-length guard makes the divisor nonzero). -/
theorem FV3.IsFin.normalized {sq : FQ → FQ} (hsq : sqrt_nonneg_total sq)
    {a : FV3} (ha : a.IsFin) : (a.normalized sq).IsFin := by
  obtain ⟨s, hs, hs0⟩ := hsq (a.dot a)
  simp only [FV3.normalized, FV3.length, hs]
  by_cases h : s = 0
  · subst h
    simp only [if_pos rfl]
    exact ha.sdiv_ne one_ne_zero
  · rw [if_neg (by simpa using h)]
    exact ha.sdiv_ne h

/-- The per-light contribution of `calculate_light_contribution` is a finite
non-negative color, under well-behaved `sqrt`/`powf`, physically meaningful
light data, non-negative base color, finite hit geometry, and non-negative
albedo weights. -/
theorem light_contribution_nn (sq : FQ → FQ) (pw : FQ → ℚ → FQ)
    (intersect : Intersect) (light : Light) (base dir : FV3)
    (hsq : sqrt_nonneg_total sq) (hpw : pow_nonneg_total pw)
    (hl : light.wf) (hbase : base.NN)
    (hpt : intersect.point.IsFin) (hn : intersect.normal.IsFin)
    (hdir : dir.IsFin)
    (halb : ∀ m, intersect.material = some m → 0 ≤ m.albedo0 ∧ 0 ≤ m.albedo1) :
    (calculate_light_contribution sq pw intersect light base dir).NN := by
  simp only [calculate_light_contribution]
  split
  · exact FV3.NN.zero
  · rename_i m hmat
    obtain ⟨ha0, ha1⟩ := halb m hmat
    obtain ⟨hint, hcx, hcy, hcz⟩ := hl
    have hlc : (light.color.toF).NN :=
      ⟨⟨_, rfl, hcx⟩, ⟨_, rfl, hcy⟩, ⟨_, rfl, hcz⟩⟩
    have hdelta : (light.position.toF - intersect.point).IsFin :=
      (FV3.IsFin.toF light.position).sub hpt
    split
    · refine FV3.NN.addv
        (FV3.NN.smul (FV3.NN.smul (FV3.NN.hmul hbase hlc)
          (FQ.NN.mul (FQ.NN.mul ?_ ⟨light.intensity, rfl, hint⟩) ?_))
          ⟨m.albedo0, rfl, ha0⟩)
        (FV3.NN.smul (FV3.NN.smul (FV3.NN.smul hlc (hpw _ _))
          ⟨m.albedo1, rfl, ha1⟩) ?_)
      · obtain ⟨nq, hnq⟩ := hn.dot (hdelta.normalized hsq)
        rw [hnq]
        exact FQ.NN.max_zero_of_fin nq
      · simp only [FV3.length]
        obtain ⟨d, hd, hd0⟩ := hsq ((light.position.toF - intersect.point).dot
          (light.position.toF - intersect.point))
        rw [hd]
        simp only [FQ.fin_mul_fin, FQ.fin_add_fin]
        rw [FQ.fin_div_fin _ _ (by positivity)]
        exact ⟨_, rfl, by positivity⟩
      · simp only [FV3.length]
        obtain ⟨d, hd, hd0⟩ := hsq ((light.position.toF - intersect.point).dot
          (light.position.toF - intersect.point))
        rw [hd]
        simp only [FQ.fin_mul_fin, FQ.fin_add_fin]
        rw [FQ.fin_div_fin _ _ (by positivity)]
        exact ⟨_, rfl, by positivity⟩
    · refine FV3.NN.smul (FV3.NN.smul (FV3.NN.hmul hbase hlc)
        (FQ.NN.mul (FQ.NN.mul ?_ ⟨light.intensity, rfl, hint⟩) ?_))
        ⟨m.albedo0, rfl, ha0⟩
      · obtain ⟨nq, hnq⟩ := hn.dot (hdelta.normalized hsq)
        rw [hnq]
        exact FQ.NN.max_zero_of_fin nq
      · simp only [FV3.length]
        obtain ⟨d, hd, hd0⟩ := hsq ((light.position.toF - intersect.point).dot
          (light.position.toF - intersect.point))
        rw [hd]
        simp only [FQ.fin_mul_fin, FQ.fin_add_fin]
        rw [FQ.fin_div_fin _ _ (by positivity)]
        exact ⟨_, rfl, by positivity⟩

/-- Folding finite non-negative contributions from a non-negative start stays
finite non-negative. -/
theorem foldl_contrib_nn (f : Light → FV3) (l : List Light) (init : FV3)
    (hi : init.NN) (h : ∀ x ∈ l, (f x).NN) :
    (l.foldl (fun acc x => acc + f x) init).NN := by
  induction l generalizing init with
  | nil => exact hi
  | cons a rest ih =>
    simp only [List.foldl_cons]
    exact ih (init + f a) (FV3.NN.addv hi (h a (List.mem_cons_self a rest)))
      fun x hx => h x (List.mem_cons_of_mem _ hx)

/-- C7: for every hit and non-empty light list, the per-light contributions
are summed and divided by the light count (an average), and the ambient floor
`base_color * 0.1` (10%, within the claimed 8-10% band) is added afterwards
(first conjunct).  Under well-behaved `sqrt`/`powf` primitives, physically
meaningful lights, finite hit geometry, non-negative albedo weights and a
non-negative finite base color, every channel of the result is at least 10%
of the base channel — so the shaded surface is not fully black whenever its
base color is not black (second conjunct). -/
theorem direct_lighting_average_and_ambient (sq : FQ → FQ) (pw : FQ → ℚ → FQ)
    (intersect : Intersect) (lights : List Light) (base dir : FV3)
    (hne : lights ≠ []) :
    (direct_lighting sq pw intersect lights base dir =
      ((lights.map fun light =>
          calculate_light_contribution sq pw intersect light base dir).foldl
        (· + ·) FV3.zero).sdiv (FQ.fin (lights.length : ℚ)) +
      base.smul (FQ.fin (1/10))) ∧
    (sqrt_nonneg_total sq → pow_nonneg_total pw → (∀ l ∈ lights, l.wf) →
      intersect.point.IsFin → intersect.normal.IsFin → dir.IsFin →
      (∀ m, intersect.material = some m → 0 ≤ m.albedo0 ∧ 0 ≤ m.albedo1) →
      ∀ bq : QV3, base = bq.toF → 0 ≤ bq.x → 0 ≤ bq.y → 0 ≤ bq.z →
      ∃ r1 r2 r3 : ℚ,
        direct_lighting sq pw intersect lights base dir =
          ⟨FQ.fin r1, FQ.fin r2, FQ.fin r3⟩ ∧
        bq.x / 10 ≤ r1 ∧ bq.y / 10 ≤ r2 ∧ bq.z / 10 ≤ r3) := by
  have hlen : lights.length ≠ 0 := fun h => hne (List.length_eq_zero.mp h)
  have hlenq : ((lights.length : ℚ)) ≠ 0 := by
    exact_mod_cast hlen
  constructor
  · simp only [direct_lighting]
    rw [List.foldl_map]
    rw [if_neg (by simp [List.isEmpty_iff, hne])]
  · intro hsq hpw hlw hpt hn hdir halb bq hbase hbx hby hbz
    have hbnn : base.NN := by
      subst hbase
      exact ⟨⟨_, rfl, hbx⟩, ⟨_, rfl, hby⟩, ⟨_, rfl, hbz⟩⟩
    have hsum : (lights.foldl
        (fun acc light =>
          acc + calculate_light_contribution sq pw intersect light base dir)
        FV3.zero).NN := by
      exact foldl_contrib_nn _ lights FV3.zero FV3.NN.zero
        fun l hl => light_contribution_nn sq pw intersect l base dir hsq hpw
          (hlw l hl) hbnn hpt hn hdir halb
    obtain ⟨⟨s1, hs1, hs10⟩, ⟨s2, hs2, hs20⟩, ⟨s3, hs3, hs30⟩⟩ := hsum
    have hfold : (lights.foldl
        (fun acc light =>
          acc + calculate_light_contribution sq pw intersect light base dir)
        FV3.zero) = ⟨FQ.fin s1, FQ.fin s2, FQ.fin s3⟩ := by
      rw [← hs1, ← hs2, ← hs3]
    simp only [direct_lighting]
    rw [if_neg (by simp [List.isEmpty_iff, hne])]
    refine ⟨s1 / lights.length + bq.x * (1/10),
      s2 / lights.length + bq.y * (1/10),
      s3 / lights.length + bq.z * (1/10), ?_, ?_, ?_, ?_⟩
    · subst hbase
      rw [hfold]
      simp only [FV3.sdiv_def, FV3.smul_def, FV3.addv_def,
        QV3.toF, FQ.fin_mul_fin, FQ.fin_div_fin _ _ hlenq, FQ.fin_add_fin]
    · have : 0 ≤ s1 / (lights.length : ℚ) := by positivity
      linarith
    · have : 0 ≤ s2 / (lights.length : ℚ) := by positivity
      linarith
    · have : 0 ≤ s3 / (lights.length : ℚ) := by positivity
      linarith

/-- Witness for C7 on a one-light scene with a positive base color. -/
theorem direct_lighting_average_and_ambient_witness :
    (direct_lighting sqOne pw0 interC7 [lightEx] baseC7.toF dC7.toF =
      (([lightEx].map fun light =>
          calculate_light_contribution sqOne pw0 interC7 light baseC7.toF
            dC7.toF).foldl (· + ·) FV3.zero).sdiv
        (FQ.fin (([lightEx] : List Light).length : ℚ)) +
      baseC7.toF.smul (FQ.fin (1/10))) ∧
    (∃ r1 r2 r3 : ℚ,
      direct_lighting sqOne pw0 interC7 [lightEx] baseC7.toF dC7.toF =
        ⟨FQ.fin r1, FQ.fin r2, FQ.fin r3⟩ ∧
      baseC7.x / 10 ≤ r1 ∧ baseC7.y / 10 ≤ r2 ∧ baseC7.z / 10 ≤ r3) := by
  have h := direct_lighting_average_and_ambient sqOne pw0 interC7 [lightEx]
    baseC7.toF dC7.toF (by simp)
  refine ⟨h.1, h.2 ?_ ?_ ?_ ?_ ?_ ?_ ?_ baseC7 rfl ?_ ?_ ?_⟩
  · intro x
    exact ⟨1, rfl, by norm_num⟩
  · intro x n
    exact ⟨0, rfl, le_refl 0⟩
  · intro l hl
    rw [List.mem_singleton] at hl
    subst hl
    refine ⟨by norm_num [lightEx], by norm_num [lightEx], by norm_num [lightEx],
      by norm_num [lightEx]⟩
  · exact ⟨0, 1/2, 0, by norm_num [interC7, Intersect.new]⟩
  · exact ⟨0, 1, 0, by norm_num [interC7, Intersect.new]⟩
  · exact ⟨0, -1, 0, rfl⟩
  · intro m hm
    simp only [interC7, Intersect.new, Option.some.injEq] at hm
    subst hm
    norm_num [matOpaque]
  · norm_num [baseC7]
  · norm_num [baseC7]
  · norm_num [baseC7]

/-! ## C6: the per-face UV rule -/

theorem qclamp_nonneg (a : ℚ) : 0 ≤ qclamp a 0 1 := by
  unfold qclamp
  split_ifs <;> linarith

theorem qclamp_le_one (a : ℚ) : qclamp a 0 1 ≤ 1 := by
  unfold qclamp
  split_ifs <;> linarith

theorem qclamp_one_sub (a : ℚ) : qclamp (1 - a) 0 1 = 1 - qclamp a 0 1 := by
  unfold qclamp
  split_ifs <;> linarith

/-- C6 counterexample: the code's UV rule differs from the claimed rule on
both the +Z and the +Y face of the unit block.  On +Z (normal in the
POSITIVE z direction) the code mirrors the horizontal axis (u = 1 - lx =
1/4) while the claimed rule gives u = lx = 3/4; on +Y the code does NOT flip
the vertical axis (v = lz = 3/4) while the claimed rule flips it (v = 1/4). -/
theorem calc_uv_claim_mismatch :
    Block.calc_uv blockUnit pZ.toF nZ.toF = (FQ.fin (1/4), FQ.fin (1/2)) ∧
    calc_uv_claimed blockUnit pZ nZ = (3/4, 1/2) ∧
    ¬ ((1/4 : ℚ) = 3/4) ∧
    Block.calc_uv blockUnit pY.toF nY.toF = (FQ.fin (1/2), FQ.fin (3/4)) ∧
    calc_uv_claimed blockUnit pY nY = (1/2, 1/4) ∧
    ¬ ((3/4 : ℚ) = 1/4) := by
  refine ⟨?_, ?_, by norm_num, ?_, ?_, by norm_num⟩ <;>
    norm_num [Block.calc_uv, calc_uv_claimed, blockUnit, mkBlock, pZ, nZ, pY,
      nY, QV3.toF, qclamp, FQ.clamp, FQ.abs, FQ.blt, FQ.div, FQ.sub, FQ.neg,
      FQ.add, FQ.add_def, FQ.sub_def, FQ.div_def, FQ.neg_def, FQ.mul_def,
      FQ.mul]

/-- C6 amended: for every block, hit point and face, `Block.calc_uv` computes
exactly the per-face rule the code implements — ±X pairs (z,y) with the
vertical flipped and the horizontal unmirrored, ±Y pairs (x,z) with the
vertical flipped only on -Y, ±Z pairs (x,y) with the vertical flipped and
the horizontal mirrored only on +Z — with both coordinates clamped into
[0,1]; and cube.rs `Cube::get_uv` implements the same rule. -/
theorem calc_uv_face_characterization (b : Block) (p : QV3) (face : Face)
    (hs : b.size ≠ 0) :
    Block.calc_uv b p.toF (faceNormal face).toF =
      (FQ.fin (calc_uv_face_rule b p face).1,
       FQ.fin (calc_uv_face_rule b p face).2) ∧
    (0 ≤ (calc_uv_face_rule b p face).1 ∧ (calc_uv_face_rule b p face).1 ≤ 1 ∧
     0 ≤ (calc_uv_face_rule b p face).2 ∧
     (calc_uv_face_rule b p face).2 ≤ 1) ∧
    Cube.get_uv ⟨b.position, b.size, b.material⟩ p (faceNormal face) =
      calc_uv_face_rule b p face := by
  cases face <;>
    refine ⟨?_, ⟨?_, ?_, ?_, ?_⟩, ?_⟩ <;>
    simp only [Block.calc_uv, Cube.get_uv, calc_uv_face_rule, faceNormal,
      QV3.toF, FV3.subv_def, FQ.fin_sub_fin, FQ.fin_add_fin, FQ.abs_fin,
      FQ.blt_fin_fin, FQ.clamp_fin, FQ.fin_div_fin _ _ hs, qclamp_one_sub] <;>
    norm_num [FQ.fin_div_fin _ _ hs, FQ.clamp_fin, qclamp_one_sub,
      qclamp_nonneg, qclamp_le_one] <;>
    first
      | linarith [qclamp_nonneg ((p.y - b.position.y + b.size * (1/2)) / b.size),
          qclamp_le_one ((p.y - b.position.y + b.size * (1/2)) / b.size)]
      | rfl

/-- Witness for the amended C6, on the +Z face of the unit block. -/
theorem calc_uv_face_characterization_witness :
    Block.calc_uv blockUnit pZ.toF (faceNormal Face.pz).toF =
      (FQ.fin (calc_uv_face_rule blockUnit pZ Face.pz).1,
       FQ.fin (calc_uv_face_rule blockUnit pZ Face.pz).2) ∧
    (0 ≤ (calc_uv_face_rule blockUnit pZ Face.pz).1 ∧
     (calc_uv_face_rule blockUnit pZ Face.pz).1 ≤ 1 ∧
     0 ≤ (calc_uv_face_rule blockUnit pZ Face.pz).2 ∧
     (calc_uv_face_rule blockUnit pZ Face.pz).2 ≤ 1) ∧
    Cube.get_uv ⟨blockUnit.position, blockUnit.size, blockUnit.material⟩ pZ
      (faceNormal Face.pz) = calc_uv_face_rule blockUnit pZ Face.pz :=
  calc_uv_face_characterization blockUnit pZ Face.pz
    (by norm_num [blockUnit, mkBlock])

/-! ## C5: the slab method -/

/-- Ordering a pair of finite slab parameters (the swap at lines 73/77/85 of
block.rs) yields exactly (min, max). -/
theorem swap_pair_min_max (a b : ℚ) :
    (if FQ.blt (FQ.fin b) (FQ.fin a) then (FQ.fin b, FQ.fin a)
     else (FQ.fin a, FQ.fin b)) =
    (FQ.fin (Min.min a b), FQ.fin (Max.max a b)) := by
  simp only [FQ.blt_fin_fin]
  rcases lt_or_le b a with h | h
  · simp [h, min_eq_right h.le, max_eq_left h.le]
  · simp [not_lt.mpr h, min_eq_left h, max_eq_right h]

/-- The `if tymin > tmin { tmin = tymin }` update on finite values is max. -/
theorem update_to_max (a b : ℚ) :
    (if FQ.blt (FQ.fin a) (FQ.fin b) then FQ.fin b else FQ.fin a) =
      FQ.fin (Max.max a b) := by
  simp only [FQ.blt_fin_fin]
  rcases lt_or_le a b with h | h
  · simp [h, max_eq_right h.le]
  · simp [not_lt.mpr h, max_eq_left h]

/-- The `if tymax < tmax { tmax = tymax }` update on finite values is min. -/
theorem update_to_min (a b : ℚ) :
    (if FQ.blt (FQ.fin b) (FQ.fin a) then FQ.fin b else FQ.fin a) =
      FQ.fin (Min.min a b) := by
  simp only [FQ.blt_fin_fin]
  rcases lt_or_le b a with h | h
  · simp [h, min_eq_right h.le]
  · simp [not_lt.mpr h, min_eq_left h]

/-- Per-axis slab facts for a non-parallel axis whose origin component lies
strictly inside the slab: the near parameter is negative, the far parameter
positive, the far parameter lands exactly on one of the two slab planes, and
every parameter between 0 and the far parameter stays inside the slab. -/
theorem slab_axis_facts (lo hi oc dc : ℚ) (hd : dc ≠ 0) (h1 : lo < oc)
    (h2 : oc < hi) :
    Min.min ((lo - oc) / dc) ((hi - oc) / dc) < 0 ∧
    0 < Max.max ((lo - oc) / dc) ((hi - oc) / dc) ∧
    (oc + dc * Max.max ((lo - oc) / dc) ((hi - oc) / dc) = lo ∨
     oc + dc * Max.max ((lo - oc) / dc) ((hi - oc) / dc) = hi) ∧
    ∀ t : ℚ, 0 ≤ t → t ≤ Max.max ((lo - oc) / dc) ((hi - oc) / dc) →
      lo ≤ oc + dc * t ∧ oc + dc * t ≤ hi := by
  rcases lt_or_gt_of_ne hd with hneg | hpos
  · have ht1 : 0 < (lo - oc) / dc := div_pos_of_neg_of_neg (by linarith) hneg
    have ht2 : (hi - oc) / dc < 0 := div_neg_of_pos_of_neg (by linarith) hneg
    have hord : (hi - oc) / dc ≤ (lo - oc) / dc := by linarith
    rw [min_eq_right hord, max_eq_left hord]
    have hcan : dc * ((lo - oc) / dc) = lo - oc := mul_div_cancel₀ _ hd
    refine ⟨ht2, ht1, Or.inl (by rw [hcan]; ring), ?_⟩
    intro t ht0 htm
    constructor
    · have h3 : dc * ((lo - oc) / dc) ≤ dc * t :=
        mul_le_mul_of_nonpos_left htm (le_of_lt hneg)
      rw [hcan] at h3
      linarith
    · have h4 : dc * t ≤ dc * 0 := mul_le_mul_of_nonpos_left ht0 (le_of_lt hneg)
      rw [mul_zero] at h4
      linarith
  · have ht1 : (lo - oc) / dc < 0 := div_neg_of_neg_of_pos (by linarith) hpos
    have ht2 : 0 < (hi - oc) / dc := div_pos (by linarith) hpos
    have hord : (lo - oc) / dc ≤ (hi - oc) / dc := by linarith
    rw [min_eq_left hord, max_eq_right hord]
    have hcan : dc * ((hi - oc) / dc) = hi - oc := mul_div_cancel₀ _ hd
    refine ⟨ht1, ht2, Or.inr (by rw [hcan]; ring), ?_⟩
    intro t ht0 htm
    constructor
    · have h4 : dc * 0 ≤ dc * t := by
        apply mul_le_mul_of_nonneg_left ht0 (le_of_lt hpos)
      rw [mul_zero] at h4
      linarith
    · have h3 : dc * t ≤ dc * ((hi - oc) / dc) :=
        mul_le_mul_of_nonneg_left htm (le_of_lt hpos)
      rw [hcan] at h3
      linarith

/-- The slab merge of a non-degenerate ray whose origin is strictly inside
the block: every axis contributes a finite (negative, positive) pair, no
rejection fires, and the merged interval is (max of the nears, min of the
fars). -/
theorem slab_merge_inside (b : Block) (o d : QV3)
    (hin : strictly_inside b o) (hnd : nondegenerate d) :
    b.slab_merge o.toF d.toF =
      some (FQ.fin (Max.max (Max.max
          (Min.min ((b.position.x - b.size * (1/2) - o.x) / d.x)
                   ((b.position.x + b.size * (1/2) - o.x) / d.x))
          (Min.min ((b.position.y - b.size * (1/2) - o.y) / d.y)
                   ((b.position.y + b.size * (1/2) - o.y) / d.y)))
          (Min.min ((b.position.z - b.size * (1/2) - o.z) / d.z)
                   ((b.position.z + b.size * (1/2) - o.z) / d.z))),
        FQ.fin (Min.min (Min.min
          (Max.max ((b.position.x - b.size * (1/2) - o.x) / d.x)
                   ((b.position.x + b.size * (1/2) - o.x) / d.x))
          (Max.max ((b.position.y - b.size * (1/2) - o.y) / d.y)
                   ((b.position.y + b.size * (1/2) - o.y) / d.y)))
          (Max.max ((b.position.z - b.size * (1/2) - o.z) / d.z)
                   ((b.position.z + b.size * (1/2) - o.z) / d.z)))) := by
  obtain ⟨hx1, hx2, hy1, hy2, hz1, hz2⟩ := hin
  obtain ⟨hdx, hdy, hdz⟩ := hnd
  have hdx0 : d.x ≠ 0 := by
    intro h
    rw [h] at hdx
    norm_num at hdx
  have hdy0 : d.y ≠ 0 := by
    intro h
    rw [h] at hdy
    norm_num at hdy
  have hdz0 : d.z ≠ 0 := by
    intro h
    rw [h] at hdz
    norm_num at hdz
  obtain ⟨hxn, hxp, hxb, hxr⟩ := slab_axis_facts _ _ _ _ hdx0 hx1 hx2
  obtain ⟨hyn, hyp, hyb, hyr⟩ := slab_axis_facts _ _ _ _ hdy0 hy1 hy2
  obtain ⟨hzn, hzp, hzb, hzr⟩ := slab_axis_facts _ _ _ _ hdz0 hz1 hz2
  simp only [Block.slab_merge, QV3.toF]
  rw [if_pos (show FQ.blt (FQ.fin (1/100000000)) (FQ.abs (FQ.fin d.x)) = true
    from by simp only [FQ.abs_fin, FQ.blt_fin_fin, decide_eq_true_eq]; exact hdx)]
  rw [if_pos (show FQ.blt (FQ.fin (1/100000000)) (FQ.abs (FQ.fin d.y)) = true
    from by simp only [FQ.abs_fin, FQ.blt_fin_fin, decide_eq_true_eq]; exact hdy)]
  rw [if_pos (show FQ.blt (FQ.fin (1/100000000)) (FQ.abs (FQ.fin d.z)) = true
    from by simp only [FQ.abs_fin, FQ.blt_fin_fin, decide_eq_true_eq]; exact hdz)]
  rw [FQ.fin_div_fin 1 d.x hdx0, FQ.fin_div_fin 1 d.y hdy0,
    FQ.fin_div_fin 1 d.z hdz0]
  simp only [FQ.fin_sub_fin, FQ.fin_mul_fin, mul_one_div]
  simp only [swap_pair_min_max]
  simp only [mul_one_div] at hxn hxp hxb hxr hyn hyp hyb hyr hzn hzp hzb hzr
  simp only [update_to_max, update_to_min]
  split_ifs with c1 c2
  · exfalso
    simp only [Bool.or_eq_true, FQ.blt_fin_fin, decide_eq_true_eq] at c1
    rcases c1 with h | h <;> linarith
  · exfalso
    simp only [Bool.or_eq_true, FQ.blt_fin_fin, decide_eq_true_eq] at c2
    have hm1 : Max.max ((b.position.x - b.size / 2 - o.x) / d.x)
        ((b.position.x + b.size / 2 - o.x) / d.x) > 0 := hxp
    rcases c2 with h | h
    · have := max_lt hxn hyn
      linarith
    · have := lt_min hxp hyp
      linarith
  · rfl

theorem ray_intersect_of_merge (b : Block) (o d : FV3) :
    (b.slab_merge o d = none → b.ray_intersect o d = Intersect.empty) ∧
    (∀ tn tx, b.slab_merge o d = some (tn, tx) →
      (FQ.blt tn (FQ.fin 0) && FQ.blt tx (FQ.fin 0)) = true →
      b.ray_intersect o d = Intersect.empty) ∧
    (∀ tn tx, b.slab_merge o d = some (tn, tx) →
      (FQ.blt tn (FQ.fin 0) && FQ.blt tx (FQ.fin 0)) = false →
      (b.ray_intersect o d).is_intersecting = true ∧
      (b.ray_intersect o d).distance =
        (if FQ.ble (FQ.fin 0) tn then tn else tx) ∧
      (b.ray_intersect o d).point =
        o + d.smul (if FQ.ble (FQ.fin 0) tn then tn else tx)) := by
  refine ⟨?_, ?_, ?_⟩
  · intro h
    simp only [Block.ray_intersect, h]
  · intro tn tx h hneg
    simp only [Block.ray_intersect, h, hneg, if_true]
  · intro tn tx h hneg
    simp only [Block.ray_intersect, h, hneg, Bool.false_eq_true, if_false]
    exact ⟨rfl, rfl, rfl⟩

theorem ray_intersect_inside_boundary (b : Block) (o d : QV3)
    (hin : strictly_inside b o) (hnd : nondegenerate d) :
    (b.ray_intersect o.toF d.toF).is_intersecting = true ∧
    FQ.ble (FQ.fin 0) (b.ray_intersect o.toF d.toF).distance = true ∧
    on_boundary b (b.ray_intersect o.toF d.toF).point EPSILON = true := by
  obtain ⟨hx1, hx2, hy1, hy2, hz1, hz2⟩ := hin
  obtain ⟨hdx, hdy, hdz⟩ := hnd
  have hdx0 : d.x ≠ 0 := by
    intro h
    rw [h] at hdx
    norm_num at hdx
  have hdy0 : d.y ≠ 0 := by
    intro h
    rw [h] at hdy
    norm_num at hdy
  have hdz0 : d.z ≠ 0 := by
    intro h
    rw [h] at hdz
    norm_num at hdz
  obtain ⟨hxn, hxp, hxb, hxr⟩ := slab_axis_facts _ _ _ _ hdx0 hx1 hx2
  obtain ⟨hyn, hyp, hyb, hyr⟩ := slab_axis_facts _ _ _ _ hdy0 hy1 hy2
  obtain ⟨hzn, hzp, hzb, hzr⟩ := slab_axis_facts _ _ _ _ hdz0 hz1 hz2
  have hmerge := slab_merge_inside b o d ⟨hx1, hx2, hy1, hy2, hz1, hz2⟩
    ⟨hdx, hdy, hdz⟩
  set nx := Min.min ((b.position.x - b.size * (1/2) - o.x) / d.x)
      ((b.position.x + b.size * (1/2) - o.x) / d.x) with hnxd
  set mx := Max.max ((b.position.x - b.size * (1/2) - o.x) / d.x)
      ((b.position.x + b.size * (1/2) - o.x) / d.x) with hmxd
  set ny := Min.min ((b.position.y - b.size * (1/2) - o.y) / d.y)
      ((b.position.y + b.size * (1/2) - o.y) / d.y) with hnyd
  set my := Max.max ((b.position.y - b.size * (1/2) - o.y) / d.y)
      ((b.position.y + b.size * (1/2) - o.y) / d.y) with hmyd
  set nz := Min.min ((b.position.z - b.size * (1/2) - o.z) / d.z)
      ((b.position.z + b.size * (1/2) - o.z) / d.z) with hnzd
  set mz := Max.max ((b.position.z - b.size * (1/2) - o.z) / d.z)
      ((b.position.z + b.size * (1/2) - o.z) / d.z) with hmzd
  have hTN : Max.max (Max.max nx ny) nz < 0 := max_lt (max_lt hxn hyn) hzn
  have hTX : 0 < Min.min (Min.min mx my) mz := lt_min (lt_min hxp hyp) hzp
  have hneg : (FQ.blt (FQ.fin (Max.max (Max.max nx ny) nz)) (FQ.fin 0) &&
      FQ.blt (FQ.fin (Min.min (Min.min mx my) mz)) (FQ.fin 0)) = false := by
    have h2 : FQ.blt (FQ.fin (Min.min (Min.min mx my) mz)) (FQ.fin 0) = false := by
      simp only [FQ.blt_fin_fin, decide_eq_false_iff_not, not_lt]
      exact le_of_lt hTX
    rw [h2, Bool.and_false]
  obtain ⟨hhit, hdist, hpoint⟩ :=
    (ray_intersect_of_merge b o.toF d.toF).2.2 _ _ hmerge hneg
  have hdist2 : (b.ray_intersect o.toF d.toF).distance =
      FQ.fin (Min.min (Min.min mx my) mz) := by
    rw [hdist, if_neg]
    simp only [FQ.ble_fin_fin, decide_eq_true_eq, not_le]
    exact hTN
  have hpoint2 : (b.ray_intersect o.toF d.toF).point =
      ⟨FQ.fin (o.x + d.x * Min.min (Min.min mx my) mz),
       FQ.fin (o.y + d.y * Min.min (Min.min mx my) mz),
       FQ.fin (o.z + d.z * Min.min (Min.min mx my) mz)⟩ := by
    rw [hpoint, if_neg]
    · simp only [QV3.toF, FV3.smul_def, FV3.addv_def, FQ.fin_mul_fin,
        FQ.fin_add_fin]
    · simp only [FQ.ble_fin_fin, decide_eq_true_eq, not_le]
      exact hTN
  have hT0 : (0:ℚ) ≤ Min.min (Min.min mx my) mz := le_of_lt hTX
  have hbx := hxr _ hT0 (le_trans (min_le_left _ _) (min_le_left _ _))
  have hby := hyr _ hT0 (le_trans (min_le_left _ _) (min_le_right _ _))
  have hbz := hzr _ hT0 (min_le_right _ _)
  refine ⟨hhit, ?_, ?_⟩
  · rw [hdist2]
    simp only [FQ.ble_fin_fin, decide_eq_true_eq]
    exact le_of_lt hTX
  · rw [hpoint2]
    simp only [on_boundary, EPSILON, FQ.ble_fin_fin, FQ.abs_fin,
      FQ.fin_sub_fin, Bool.and_eq_true, Bool.or_eq_true, decide_eq_true_eq]
    refine ⟨⟨⟨⟨⟨⟨?_, ?_⟩, ?_⟩, ?_⟩, ?_⟩, ?_⟩, ?_⟩
    · linarith [hbx.1]
    · linarith [hbx.2]
    · linarith [hby.1]
    · linarith [hby.2]
    · linarith [hbz.1]
    · linarith [hbz.2]
    · rcases min_cases (Min.min mx my) mz with ⟨he, _⟩ | ⟨he, _⟩
      · rcases min_cases mx my with ⟨he2, _⟩ | ⟨he2, _⟩
        · rw [he, he2]
          rcases hxb with hf | hf
          · refine Or.inl (Or.inl (Or.inl (Or.inl (Or.inl ?_))))
            rw [hf, sub_self, abs_zero]
            norm_num
          · refine Or.inl (Or.inl (Or.inl (Or.inl (Or.inr ?_))))
            rw [hf, sub_self, abs_zero]
            norm_num
        · rw [he, he2]
          rcases hyb with hf | hf
          · refine Or.inl (Or.inl (Or.inl (Or.inr ?_)))
            rw [hf, sub_self, abs_zero]
            norm_num
          · refine Or.inl (Or.inl (Or.inr ?_))
            rw [hf, sub_self, abs_zero]
            norm_num
      · rw [he]
        rcases hzb with hf | hf
        · refine Or.inl (Or.inr ?_)
          rw [hf, sub_self, abs_zero]
          norm_num
        · refine Or.inr ?_
          rw [hf, sub_self, abs_zero]
          norm_num

set_option maxHeartbeats 3200000 in
/-- C5 counterexample: the "origin strictly inside implies the hit point lies
on the block's boundary within epsilon" part fails for an arbitrary
direction.  With the origin (0, 2/5, 0) strictly inside the unit block and
the shear direction (2e-8, 1e-8, 0) — whose y and z components fall at or
below the 1e-8 threshold and are treated as parallel — the reported hit is
accepted (distance 2.5e7 ≥ 0) but the hit point (1/2, 13/20, 0) lies 0.15
outside the cube in y, far beyond the 1e-4 epsilon. -/
theorem ray_intersect_inside_claim_false :
    strictly_inside blockUnit oInsideQ ∧
    (blockUnit.ray_intersect oInsideQ.toF dShear).is_intersecting = true ∧
    FQ.ble (FQ.fin 0) (blockUnit.ray_intersect oInsideQ.toF dShear).distance
      = true ∧
    (blockUnit.ray_intersect oInsideQ.toF dShear).point =
      ⟨FQ.fin (1/2), FQ.fin (13/20), FQ.fin 0⟩ ∧
    on_boundary blockUnit (blockUnit.ray_intersect oInsideQ.toF dShear).point
      EPSILON = false := by
  refine ⟨by norm_num [strictly_inside, blockUnit, mkBlock, oInsideQ],
    ?_, ?_, ?_, ?_⟩ <;>
    norm_num [Block.ray_intersect, Block.slab_merge, Block.calc_uv,
      Intersect.new, Intersect.empty, on_boundary, EPSILON, blockUnit, mkBlock,
      oInsideQ, dShear, QV3.toF, FQ.div, FQ.mul, FQ.abs, FQ.blt, FQ.ble,
      FQ.sub, FQ.neg, FQ.add, FQ.clamp, FQ.add_def, FQ.sub_def, FQ.mul_def,
      FQ.div_def, FQ.neg_def, FV3.smul, abs_of_pos, abs_of_nonneg]

/-- C5 amended: (first conjunct, the slab bookkeeping) `ray_intersect`
returns the empty intersection when the running [tmin,tmax] interval is
rejected during the merge or when both tmin and tmax are negative, and
otherwise reports distance tmin if tmin is non-negative, else tmax, with the
hit point at origin + direction * distance.  (Second conjunct) For a ray
whose origin lies strictly inside the block, PROVIDED all three direction
components exceed the 1e-8 degeneracy threshold in absolute value — the
restriction forced by the counterexample — the hit is accepted, the reported
distance is non-negative, and the hit point lies on the block's boundary
within epsilon. -/
theorem ray_intersect_slab_characterization (b : Block) (o d : FV3)
    (oq dq : QV3) :
    ((b.slab_merge o d = none → b.ray_intersect o d = Intersect.empty) ∧
     (∀ tn tx, b.slab_merge o d = some (tn, tx) →
       (FQ.blt tn (FQ.fin 0) && FQ.blt tx (FQ.fin 0)) = true →
       b.ray_intersect o d = Intersect.empty) ∧
     (∀ tn tx, b.slab_merge o d = some (tn, tx) →
       (FQ.blt tn (FQ.fin 0) && FQ.blt tx (FQ.fin 0)) = false →
       (b.ray_intersect o d).is_intersecting = true ∧
       (b.ray_intersect o d).distance =
         (if FQ.ble (FQ.fin 0) tn then tn else tx) ∧
       (b.ray_intersect o d).point =
         o + d.smul (if FQ.ble (FQ.fin 0) tn then tn else tx))) ∧
    (strictly_inside b oq → nondegenerate dq →
      (b.ray_intersect oq.toF dq.toF).is_intersecting = true ∧
      FQ.ble (FQ.fin 0) (b.ray_intersect oq.toF dq.toF).distance = true ∧
      on_boundary b (b.ray_intersect oq.toF dq.toF).point EPSILON = true) :=
  ⟨ray_intersect_of_merge b o d,
   fun hin hnd => ray_intersect_inside_boundary b oq dq hin hnd⟩

/-- Witness for the amended C5: the inside-origin property at a concrete
block, inside origin and non-degenerate direction. -/
theorem ray_intersect_slab_characterization_witness :
    (blockUnit.ray_intersect oInsideQ.toF dNice.toF).is_intersecting = true ∧
    FQ.ble (FQ.fin 0) (blockUnit.ray_intersect oInsideQ.toF dNice.toF).distance
      = true ∧
    on_boundary blockUnit (blockUnit.ray_intersect oInsideQ.toF dNice.toF).point
      EPSILON = true :=
  (ray_intersect_slab_characterization blockUnit oEx dEx oInsideQ dNice).2
    (by norm_num [strictly_inside, blockUnit, mkBlock, oInsideQ])
    (by norm_num [nondegenerate, dNice, abs_of_pos])
